import Mathlib

/-!
DDS decoder (`dlls/windowscodecs/ddsformat.c`).

A shallow embedding of the DDS container decoder: the header interpreter
(`has_extended_header`, `get_dimension`, `get_format_from_fourcc`,
`get_alpha_mode_from_fourcc`, `get_dds_info`, `get_bytes_per_block`) and the
decoder session (`DdsDecoder_Initialize`, `DdsDecoder_GetFrameCount`,
`DdsDecoder_GetFrame`, `DdsDecoder_Dds_GetParameters`,
`DdsDecoder_Dds_GetFrame`).

Conventions of the embedding.

* `DWORD` and `UINT` are natural numbers; every addition, subtraction and
  multiplication that C performs on them is followed by an explicit
  reduction modulo `2 ^ 32`.  Division and remainder cannot overflow.
* Memory that C reads from the stream is a list of bytes (`Fin 256`); a
  struct field is the little-endian `DWORD` at the field's offset.
* An output pointer is a `Bool` (`true`: the pointer is not null); what C
  stores through it is the value carried by `Outcome.ok`.
* `HeapAlloc` is a `Bool` argument (`true`: the allocation succeeds).
* The `while` loop of `DdsDecoder_GetFrame` takes fuel: one unit for every
  evaluation of its condition.
* The counters `int i` and `int j` of the two `for` loops are compared with
  a `UINT`, hence as unsigned numbers; the loops are iterated that many
  times.
-/

namespace Dds

/-! ## Constants and types -/

/-- One byte of stream or struct memory. -/
abbrev Byte : Type := Fin 256

/-- The number of values of a `DWORD` / `UINT`. -/
def UINT_RANGE : Nat := 2 ^ 32

def DDS_MAGIC : Nat := 0x20534444

def MAKEFOURCC (ch0 ch1 ch2 ch3 : Char) : Nat :=
  (ch0.toNat % 256) ||| ((ch1.toNat % 256) <<< 8) |||
  ((ch2.toNat % 256) <<< 16) ||| ((ch3.toNat % 256) <<< 24)

def DDPF_FOURCC : Nat := 0x00000004

def DDSCAPS2_CUBEMAP : Nat := 0x00000200
def DDSCAPS2_VOLUME : Nat := 0x00200000

def DDS_DIMENSION_TEXTURE1D : Nat := 2
def DDS_DIMENSION_TEXTURE2D : Nat := 3
def DDS_DIMENSION_TEXTURE3D : Nat := 4

def DDS_RESOURCE_MISC_TEXTURECUBE : Nat := 0x00000004

/-- Modelled from the spec: the result codes of the decoder.  Their numeric
values come from `winerror.h` and `wincodec.h`, which are not among the
sources; the spec names them `WrongState`, `StreamReadError`, `UnknownFormat`,
`BadHeader`, `InvalidArgument` and `OutOfMemory`. -/
inductive HRESULT where
  | S_OK
  | S_FALSE
  | E_INVALIDARG
  | E_OUTOFMEMORY
  | WINCODEC_ERR_WRONGSTATE
  | WINCODEC_ERR_STREAMREAD
  | WINCODEC_ERR_UNKNOWNIMAGEFORMAT
  | WINCODEC_ERR_BADHEADER
  deriving DecidableEq, Repr

/-- The `FAILED` test of an `HRESULT`: every code but the two success codes. -/
def FAILED : HRESULT → Bool
  | HRESULT.S_OK => false
  | HRESULT.S_FALSE => false
  | _ => true

/-! The numeric pixel formats are those of `dxgiformat.h`, which is not among the
sources: BC1 is 70 to 72, BC2 is 73 to 75, BC3 is 76 to 78. -/

/-- Modelled from the spec: a pixel format of `dxgiformat.h`. -/
def DXGI_FORMAT_UNKNOWN : Nat := 0

/-- Modelled from the spec: a pixel format of `dxgiformat.h`. -/
def DXGI_FORMAT_BC1_TYPELESS : Nat := 70

/-- Modelled from the spec: a pixel format of `dxgiformat.h`. -/
def DXGI_FORMAT_BC1_UNORM : Nat := 71

/-- Modelled from the spec: a pixel format of `dxgiformat.h`. -/
def DXGI_FORMAT_BC1_UNORM_SRGB : Nat := 72

/-- Modelled from the spec: a pixel format of `dxgiformat.h`. -/
def DXGI_FORMAT_BC2_TYPELESS : Nat := 73

/-- Modelled from the spec: a pixel format of `dxgiformat.h`. -/
def DXGI_FORMAT_BC2_UNORM : Nat := 74

/-- Modelled from the spec: a pixel format of `dxgiformat.h`. -/
def DXGI_FORMAT_BC2_UNORM_SRGB : Nat := 75

/-- Modelled from the spec: a pixel format of `dxgiformat.h`. -/
def DXGI_FORMAT_BC3_TYPELESS : Nat := 76

/-- Modelled from the spec: a pixel format of `dxgiformat.h`. -/
def DXGI_FORMAT_BC3_UNORM : Nat := 77

/-- Modelled from the spec: a pixel format of `dxgiformat.h`. -/
def DXGI_FORMAT_BC3_UNORM_SRGB : Nat := 78

/-- Modelled from the spec: the dimension kinds of `wincodec.h` (1D texture,
2D texture, 3D/volume texture, cube texture). -/
inductive WICDdsDimension where
  | WICDdsTexture1D
  | WICDdsTexture2D
  | WICDdsTexture3D
  | WICDdsTextureCube
  deriving DecidableEq, Repr

/-! The alpha modes are those of `wincodec.h`, which is not among the sources.
The field that holds one is a C `enum`, hence a number. -/

/-- Modelled from the spec: the alpha mode unknown. -/
def WICDdsAlphaModeUnknown : Nat := 0

/-- Modelled from the spec: the alpha mode straight. -/
def WICDdsAlphaModeStraight : Nat := 1

/-- Modelled from the spec: the alpha mode premultiplied. -/
def WICDdsAlphaModePremultiplied : Nat := 2

structure DDS_PIXELFORMAT where
  size : Nat
  flags : Nat
  fourCC : Nat
  rgbBitCount : Nat
  rBitMask : Nat
  gBitMask : Nat
  bBitMask : Nat
  aBitMask : Nat
  deriving DecidableEq, Repr

structure DDS_HEADER where
  size : Nat
  flags : Nat
  height : Nat
  width : Nat
  pitchOrLinearSize : Nat
  depth : Nat
  mipMapCount : Nat
  reserved1 : List Nat
  ddspf : DDS_PIXELFORMAT
  caps : Nat
  caps2 : Nat
  caps3 : Nat
  caps4 : Nat
  reserved2 : Nat
  deriving DecidableEq, Repr

structure DDS_HEADER_DXT10 where
  dxgiFormat : Nat
  resourceDimension : Nat
  miscFlag : Nat
  arraySize : Nat
  miscFlags2 : Nat
  deriving DecidableEq, Repr

structure dds_info where
  width : Nat
  height : Nat
  depth : Nat
  mip_levels : Nat
  array_size : Nat
  frame_count : Nat
  format : Nat
  dimension : WICDdsDimension
  alpha_mode : Nat
  deriving DecidableEq, Repr

structure dds_frame_info where
  width : Nat
  height : Nat
  format : Nat
  bytes_per_block : Nat
  block_width : Nat
  block_height : Nat
  width_in_blocks : Nat
  height_in_blocks : Nat
  deriving DecidableEq, Repr

/-- Modelled from the spec: the stream is an external collaborator (a COM
`IStream`); it is a byte sequence with a read position, whose seek and reads
do not themselves fail. -/
structure IStream where
  data : List Byte
  pos : Nat
  deriving DecidableEq, Repr

/-- The decoder session.  `header` and `header_dxt10` are the memory of the
two structs (124 and 20 bytes), which `IStream_Read` fills byte by byte;
`stream` is the retained stream pointer (`none`: `NULL`). -/
structure DdsDecoder where
  initialized : Bool
  stream : Option IStream
  header : List Byte
  header_dxt10 : List Byte
  info : dds_info
  deriving DecidableEq, Repr

/-- What a call does: it stores a value through its output pointer and
returns `S_OK`, or returns another code, or divides by zero, or is still in
a loop when the fuel is used up. -/
inductive Outcome (α : Type) where
  | ok (value : α)
  | fail (hr : HRESULT)
  | div_by_zero
  | out_of_fuel
  deriving DecidableEq, Repr

/-! ## Struct memory -/

/-- The little-endian `DWORD` at byte offset `off` of `mem`. -/
def read_dword (mem : List Byte) (off : Nat) : Nat :=
  (mem.getD off 0).val + 256 * (mem.getD (off + 1) 0).val +
  65536 * (mem.getD (off + 2) 0).val + 16777216 * (mem.getD (off + 3) 0).val

/-- The fields of a `DDS_PIXELFORMAT` that starts at offset `off`. -/
def DDS_PIXELFORMAT.ofBytes (mem : List Byte) (off : Nat) : DDS_PIXELFORMAT where
  size := read_dword mem off
  flags := read_dword mem (off + 4)
  fourCC := read_dword mem (off + 8)
  rgbBitCount := read_dword mem (off + 12)
  rBitMask := read_dword mem (off + 16)
  gBitMask := read_dword mem (off + 20)
  bBitMask := read_dword mem (off + 24)
  aBitMask := read_dword mem (off + 28)

/-- The fields of the `DDS_HEADER` held in 124 bytes of memory. -/
def DDS_HEADER.ofBytes (mem : List Byte) : DDS_HEADER where
  size := read_dword mem 0
  flags := read_dword mem 4
  height := read_dword mem 8
  width := read_dword mem 12
  pitchOrLinearSize := read_dword mem 16
  depth := read_dword mem 20
  mipMapCount := read_dword mem 24
  reserved1 := (List.range 11).map fun k => read_dword mem (28 + 4 * k)
  ddspf := DDS_PIXELFORMAT.ofBytes mem 72
  caps := read_dword mem 104
  caps2 := read_dword mem 108
  caps3 := read_dword mem 112
  caps4 := read_dword mem 116
  reserved2 := read_dword mem 120

/-- The fields of the `DDS_HEADER_DXT10` held in 20 bytes of memory. -/
def DDS_HEADER_DXT10.ofBytes (mem : List Byte) : DDS_HEADER_DXT10 where
  dxgiFormat := read_dword mem 0
  resourceDimension := read_dword mem 4
  miscFlag := read_dword mem 8
  arraySize := read_dword mem 12
  miscFlags2 := read_dword mem 16

/-- The value of `sizeof(DDS_HEADER)`. -/
def sizeof_DDS_HEADER : Nat := 124

/-- The value of `sizeof(DDS_HEADER_DXT10)`. -/
def sizeof_DDS_HEADER_DXT10 : Nat := 20

/-- The value of `sizeof(DWORD)`. -/
def sizeof_DWORD : Nat := 4

/-- The memory of a buffer after `bytes` were stored at its start. -/
def store_bytes (bytes buffer : List Byte) : List Byte :=
  bytes ++ buffer.drop bytes.length

/-- Modelled from the spec: `IStream::Seek` with `SEEK_SET` on a byte
sequence; it does not fail. -/
def IStream_Seek (pIStream : IStream) (offset : Nat) : HRESULT × IStream :=
  (HRESULT.S_OK, { pIStream with pos := offset })

/-- Modelled from the spec: `IStream::Read` on a byte sequence.  It reads up
to `cb` bytes at the position and does not fail: the code returned (`S_FALSE`
for a short read), the bytes read (their number is `bytesread`) and the
stream after the read. -/
def IStream_Read (pIStream : IStream) (cb : Nat) : HRESULT × List Byte × IStream :=
  let bytes := (pIStream.data.drop pIStream.pos).take cb
  (if bytes.length = cb then HRESULT.S_OK else HRESULT.S_FALSE, bytes,
    { pIStream with pos := pIStream.pos + bytes.length })

/-! ## Header interpreter -/

def has_extended_header (header : DDS_HEADER) : Bool :=
  (header.ddspf.flags &&& DDPF_FOURCC != 0) &&
  (header.ddspf.fourCC == MAKEFOURCC 'D' 'X' '1' '0')

/-- The dimension kind.  `header_dxt10` is `none` for a `NULL` pointer.  The
call that passes `NULL` for `header` passes an extended header, and `header`
is read only when there is none. -/
def get_dimension (header : DDS_HEADER) (header_dxt10 : Option DDS_HEADER_DXT10) :
    WICDdsDimension :=
  match header_dxt10 with
  | some dxt10 =>
    if dxt10.miscFlag &&& DDS_RESOURCE_MISC_TEXTURECUBE != 0 then
      WICDdsDimension.WICDdsTextureCube
    else if dxt10.resourceDimension = DDS_DIMENSION_TEXTURE1D then
      WICDdsDimension.WICDdsTexture1D
    else if dxt10.resourceDimension = DDS_DIMENSION_TEXTURE2D then
      WICDdsDimension.WICDdsTexture2D
    else if dxt10.resourceDimension = DDS_DIMENSION_TEXTURE3D then
      WICDdsDimension.WICDdsTexture3D
    else
      WICDdsDimension.WICDdsTexture2D
  | none =>
    if header.caps2 &&& DDSCAPS2_CUBEMAP != 0 then
      WICDdsDimension.WICDdsTextureCube
    else if header.caps2 &&& DDSCAPS2_VOLUME != 0 then
      WICDdsDimension.WICDdsTexture3D
    else
      WICDdsDimension.WICDdsTexture2D

def get_format_from_fourcc (fourcc : Nat) : Nat :=
  if fourcc = MAKEFOURCC 'D' 'X' 'T' '1' then DXGI_FORMAT_BC1_UNORM
  else if fourcc = MAKEFOURCC 'D' 'X' 'T' '2' then DXGI_FORMAT_BC2_UNORM
  else if fourcc = MAKEFOURCC 'D' 'X' 'T' '3' then DXGI_FORMAT_BC2_UNORM
  else if fourcc = MAKEFOURCC 'D' 'X' 'T' '4' then DXGI_FORMAT_BC3_UNORM
  else if fourcc = MAKEFOURCC 'D' 'X' 'T' '5' then DXGI_FORMAT_BC3_UNORM
  else if fourcc = MAKEFOURCC 'D' 'X' '1' '0' then DXGI_FORMAT_UNKNOWN
  else fourcc

def get_alpha_mode_from_fourcc (fourcc : Nat) : Nat :=
  if fourcc = MAKEFOURCC 'D' 'X' 'T' '1' then WICDdsAlphaModePremultiplied
  else if fourcc = MAKEFOURCC 'D' 'X' 'T' '2' then WICDdsAlphaModePremultiplied
  else if fourcc = MAKEFOURCC 'D' 'X' 'T' '4' then WICDdsAlphaModePremultiplied
  else if fourcc = MAKEFOURCC 'D' 'X' 'T' '3' then WICDdsAlphaModeStraight
  else if fourcc = MAKEFOURCC 'D' 'X' 'T' '5' then WICDdsAlphaModeStraight
  else WICDdsAlphaModeUnknown

/-- One step of a mip chain: `if (x > 1) x /= 2;`. -/
def halve (x : Nat) : Nat := if x > 1 then x / 2 else x

/-- The loop `for (i = 0; i < info->mip_levels; i++)` of `get_dds_info`, with
`n` iterations left: the final `frame_count`. -/
def frame_count_loop : Nat → Nat → Nat → Nat
  | 0, frame_count, _ => frame_count
  | n + 1, frame_count, depth =>
    frame_count_loop n ((frame_count + depth) % UINT_RANGE) (halve depth)

/-- The `dds_info` that `get_dds_info` writes; every field is assigned. -/
def get_dds_info (header : DDS_HEADER) (header_dxt10 : DDS_HEADER_DXT10) : dds_info :=
  let depth := if header.depth != 0 then header.depth else 1
  let mip_levels := if header.mipMapCount != 0 then header.mipMapCount else 1
  let ext := has_extended_header header
  let array_size :=
    if ext then (if header_dxt10.arraySize != 0 then header_dxt10.arraySize else 1) else 1
  let format :=
    if ext then header_dxt10.dxgiFormat else get_format_from_fourcc header.ddspf.fourCC
  let dimension :=
    if ext then get_dimension header (some header_dxt10) else get_dimension header none
  let alpha_mode :=
    if ext then header_dxt10.miscFlags2 &&& 0x00000008
    else get_alpha_mode_from_fourcc header.ddspf.fourCC
  let frame_count :=
    if depth = 1 then (array_size * mip_levels) % UINT_RANGE
    else (frame_count_loop mip_levels 0 depth * array_size) % UINT_RANGE
  { width := header.width, height := header.height, depth := depth,
    mip_levels := mip_levels, array_size := array_size, frame_count := frame_count,
    format := format, dimension := dimension, alpha_mode := alpha_mode }

def get_bytes_per_block (format : Nat) : Nat :=
  if format = DXGI_FORMAT_BC1_UNORM ∨ format = DXGI_FORMAT_BC1_TYPELESS ∨
      format = DXGI_FORMAT_BC1_UNORM_SRGB then 8
  else if format = DXGI_FORMAT_BC2_UNORM ∨ format = DXGI_FORMAT_BC2_TYPELESS ∨
      format = DXGI_FORMAT_BC2_UNORM_SRGB ∨ format = DXGI_FORMAT_BC3_UNORM ∨
      format = DXGI_FORMAT_BC3_TYPELESS ∨ format = DXGI_FORMAT_BC3_UNORM_SRGB then 16
  else 0

/-! ## Decoder session -/

/-- A new session: `initialized` is false and `stream` is `NULL`; `HeapAlloc`
does not clear the memory, so the two headers and `info` hold whatever the
heap held. -/
def DdsDecoder_CreateInstance (header header_dxt10 : List Byte) (info : dds_info) :
    DdsDecoder :=
  { initialized := false, stream := none, header := header,
    header_dxt10 := header_dxt10, info := info }

/-- The code returned and the session afterwards.  Every call first seeks to
offset 0, so the position in which a call leaves the caller's stream is kept
only in the retained `stream`. -/
def DdsDecoder_Initialize (This : DdsDecoder) (pIStream : IStream) :
    HRESULT × DdsDecoder :=
  if This.initialized then (HRESULT.WINCODEC_ERR_WRONGSTATE, This)
  else
    let (hr, pIStream) := IStream_Seek pIStream 0
    if FAILED hr then (hr, This)
    else
      let (hr, magic, pIStream) := IStream_Read pIStream sizeof_DWORD
      if FAILED hr then (hr, This)
      else if magic.length ≠ sizeof_DWORD then (HRESULT.WINCODEC_ERR_STREAMREAD, This)
      else if read_dword magic 0 ≠ DDS_MAGIC then
        (HRESULT.WINCODEC_ERR_UNKNOWNIMAGEFORMAT, This)
      else
        let (hr, bytes, pIStream) := IStream_Read pIStream sizeof_DDS_HEADER
        let This := { This with header := store_bytes bytes This.header }
        if FAILED hr then (hr, This)
        else if bytes.length ≠ sizeof_DDS_HEADER then
          (HRESULT.WINCODEC_ERR_STREAMREAD, This)
        else if (DDS_HEADER.ofBytes This.header).size ≠ sizeof_DDS_HEADER then
          (HRESULT.WINCODEC_ERR_BADHEADER, This)
        else
          let finish (hr : HRESULT) (This : DdsDecoder) (pIStream : IStream) :
              HRESULT × DdsDecoder :=
            (hr, { This with
              info := get_dds_info (DDS_HEADER.ofBytes This.header)
                (DDS_HEADER_DXT10.ofBytes This.header_dxt10),
              initialized := true,
              stream := some pIStream })
          if has_extended_header (DDS_HEADER.ofBytes This.header) then
            let (hr, bytes, pIStream) := IStream_Read pIStream sizeof_DDS_HEADER_DXT10
            let This := { This with header_dxt10 := store_bytes bytes This.header_dxt10 }
            if FAILED hr then (hr, This)
            else if bytes.length ≠ sizeof_DDS_HEADER_DXT10 then
              (HRESULT.WINCODEC_ERR_STREAMREAD, This)
            else finish hr This pIStream
          else finish hr This pIStream

def DdsDecoder_GetFrameCount (This : DdsDecoder) (pCount : Bool) : Outcome Nat :=
  if !pCount then Outcome.fail HRESULT.E_INVALIDARG
  else if !This.initialized then Outcome.fail HRESULT.WINCODEC_ERR_WRONGSTATE
  else Outcome.ok This.info.frame_count

/-- What `DdsDecoder_Dds_GetParameters` stores: the fields of `info` but
`frame_count`. -/
structure WICDdsParameters where
  Width : Nat
  Height : Nat
  Depth : Nat
  MipLevels : Nat
  ArraySize : Nat
  DxgiFormat : Nat
  Dimension : WICDdsDimension
  AlphaMode : Nat
  deriving DecidableEq, Repr

def DdsDecoder_Dds_GetParameters (This : DdsDecoder) (parameters : Bool) :
    Outcome WICDdsParameters :=
  if !parameters then Outcome.fail HRESULT.E_INVALIDARG
  else if !This.initialized then Outcome.fail HRESULT.WINCODEC_ERR_WRONGSTATE
  else Outcome.ok
    { Width := This.info.width, Height := This.info.height, Depth := This.info.depth,
      MipLevels := This.info.mip_levels, ArraySize := This.info.array_size,
      DxgiFormat := This.info.format, Dimension := This.info.dimension,
      AlphaMode := This.info.alpha_mode }

/-- The loop `for (j = 0; j < mipLevel; j++)` of `DdsDecoder_Dds_GetFrame`,
with `n` iterations left: the final `width` and `height`. -/
def mip_size_loop : Nat → Nat → Nat → Nat × Nat
  | 0, width, height => (width, height)
  | n + 1, width, height => mip_size_loop n (halve width) (halve height)

/-- The frame description that `DdsDecoder_Dds_GetFrame` fills in, from the
size of the mip level and the format. -/
def fill_frame_info (width height format : Nat) : dds_frame_info :=
  let block_width := 4
  let block_height := 4
  { width := width, height := height, format := format,
    bytes_per_block := get_bytes_per_block format,
    block_width := block_width, block_height := block_height,
    width_in_blocks :=
      ((width + block_width) % UINT_RANGE + UINT_RANGE - 1) % UINT_RANGE / block_width,
    height_in_blocks :=
      ((width + block_height) % UINT_RANGE + UINT_RANGE - 1) % UINT_RANGE / block_height }

def DdsDecoder_Dds_GetFrame (This : DdsDecoder) (arrayIndex mipLevel sliceIndex : Nat)
    (bitmapFrame : Bool) (HeapAlloc : Bool) : Outcome dds_frame_info :=
  if !bitmapFrame then Outcome.fail HRESULT.E_INVALIDARG
  else if !This.initialized then Outcome.fail HRESULT.WINCODEC_ERR_WRONGSTATE
  else if arrayIndex ≥ This.info.array_size ∨ mipLevel ≥ This.info.mip_levels ∨
      sliceIndex ≥ This.info.depth then Outcome.fail HRESULT.E_INVALIDARG
  else
    let (width, height) := mip_size_loop mipLevel This.info.width This.info.height
    if !HeapAlloc then Outcome.fail HRESULT.E_OUTOFMEMORY
    else Outcome.ok (fill_frame_info width height This.info.format)

/-- The loop `while (slice_index >= depth)` of `DdsDecoder_GetFrame`: the
final `mip_level` and `slice_index`, or `none` when the fuel is used up. -/
def mip_walk : Nat → Nat → Nat → Nat → Option (Nat × Nat)
  | 0, _, _, _ => none
  | fuel + 1, slice_index, mip_level, depth =>
    if slice_index ≥ depth then
      mip_walk fuel (slice_index - depth) ((mip_level + 1) % UINT_RANGE) (halve depth)
    else some (mip_level, slice_index)

/-- The index decomposition of `DdsDecoder_GetFrame` (from `frame_per_texture`
to the end of the loop): `(array_index, mip_level, slice_index)`. -/
def get_frame_address (fuel : Nat) (info : dds_info) (index : Nat) :
    Outcome (Nat × Nat × Nat) :=
  if info.array_size = 0 then Outcome.div_by_zero
  else
    let frame_per_texture := info.frame_count / info.array_size
    if frame_per_texture = 0 then Outcome.div_by_zero
    else
      let array_index := index / frame_per_texture
      let slice_index := index % frame_per_texture
      match mip_walk fuel slice_index 0 info.depth with
      | none => Outcome.out_of_fuel
      | some (mip_level, slice_index) => Outcome.ok (array_index, mip_level, slice_index)

def DdsDecoder_GetFrame (fuel : Nat) (This : DdsDecoder) (index : Nat)
    (ppIBitmapFrame : Bool) (HeapAlloc : Bool) : Outcome dds_frame_info :=
  if !ppIBitmapFrame then Outcome.fail HRESULT.E_INVALIDARG
  else if !This.initialized then Outcome.fail HRESULT.WINCODEC_ERR_WRONGSTATE
  else
    match get_frame_address fuel This.info index with
    | Outcome.ok (array_index, mip_level, slice_index) =>
      DdsDecoder_Dds_GetFrame This array_index mip_level slice_index ppIBitmapFrame HeapAlloc
    | Outcome.fail hr => Outcome.fail hr
    | Outcome.div_by_zero => Outcome.div_by_zero
    | Outcome.out_of_fuel => Outcome.out_of_fuel

/-! ## Notions used by the statements -/

/-- The depth of mip level `k`: the base depth halved `k` times and floored
at 1. -/
def depth_at (depth k : Nat) : Nat := max 1 (depth / 2 ^ k)

/-- The frame count in unbounded arithmetic: the array size times the sum of
the depths of the mip levels.  The 32-bit `frame_count` did not wrap when this
number is below `2 ^ 32`. -/
def exact_frame_count (info : dds_info) : Nat :=
  info.array_size * ∑ k in Finset.range info.mip_levels, depth_at info.depth k

/-- The header that a stream holds after its magic (offsets 4 to 127). -/
def stream_header (pIStream : IStream) : DDS_HEADER :=
  DDS_HEADER.ofBytes ((pIStream.data.drop 4).take 124)

/-- The extended header that a stream holds after its header (offsets 128 to
147). -/
def stream_header_dxt10 (pIStream : IStream) : DDS_HEADER_DXT10 :=
  DDS_HEADER_DXT10.ofBytes ((pIStream.data.drop 128).take 20)

/-- The sessions that exist: a new session, and a session after any call of
`DdsDecoder_Initialize`, whatever it returned. -/
inductive Reachable : DdsDecoder → Prop where
  | create (header header_dxt10 : List Byte) (info : dds_info) :
      Reachable (DdsDecoder_CreateInstance header header_dxt10 info)
  | step (This : DdsDecoder) (pIStream : IStream) :
      Reachable This → Reachable (DdsDecoder_Initialize This pIStream).2

/-- The sessions on which no call of `DdsDecoder_Initialize` has succeeded: a
new session, and such a session after one more call that failed. -/
inductive NeverInitialized : DdsDecoder → Prop where
  | create (header header_dxt10 : List Byte) (info : dds_info) :
      NeverInitialized (DdsDecoder_CreateInstance header header_dxt10 info)
  | failed (This : DdsDecoder) (pIStream : IStream) :
      NeverInitialized This → FAILED (DdsDecoder_Initialize This pIStream).1 = true →
      NeverInitialized (DdsDecoder_Initialize This pIStream).2

/-! ## Sample inputs -/

/-- A header with the given size, depth, mip count and FourCC, the FourCC flag
set and every other field zero. -/
def sample_header (width height depth mipMapCount fourCC : Nat) : DDS_HEADER :=
  { size := 124, flags := 0, height := height, width := width, pitchOrLinearSize := 0,
    depth := depth, mipMapCount := mipMapCount, reserved1 := List.replicate 11 0,
    ddspf := { size := 32, flags := DDPF_FOURCC, fourCC := fourCC, rgbBitCount := 0,
               rBitMask := 0, gBitMask := 0, bBitMask := 0, aBitMask := 0 },
    caps := 0, caps2 := 0, caps3 := 0, caps4 := 0, reserved2 := 0 }

/-- An extended header with the given array size, every other field zero. -/
def sample_header_dxt10 (arraySize : Nat) : DDS_HEADER_DXT10 :=
  { dxgiFormat := 0, resourceDimension := 0, miscFlag := 0, arraySize := arraySize,
    miscFlags2 := 0 }

/-- The four bytes of a `DWORD`, least significant first. -/
def dword_bytes (x : Nat) : List Byte :=
  [Fin.ofNat x, Fin.ofNat (x / 256), Fin.ofNat (x / 65536), Fin.ofNat (x / 16777216)]

/-- The bytes of a DDS file: the magic and a header with the given size field,
size, depth, mip count and FourCC (FourCC flag set, every other field zero),
followed by `rest`. -/
def sample_file (magic size width height depth mipMapCount fourCC : Nat)
    (rest : List Byte) : List Byte :=
  dword_bytes magic ++ dword_bytes size ++ dword_bytes 0 ++ dword_bytes height ++
  dword_bytes width ++ dword_bytes 0 ++ dword_bytes depth ++ dword_bytes mipMapCount ++
  List.replicate 44 0 ++
  dword_bytes 32 ++ dword_bytes DDPF_FOURCC ++ dword_bytes fourCC ++ List.replicate 20 0 ++
  List.replicate 20 0 ++ rest

/-- The bytes of an extended header with the given array size, every other
field zero. -/
def sample_dxt10_bytes (arraySize : Nat) : List Byte :=
  List.replicate 12 0 ++ dword_bytes arraySize ++ List.replicate 4 0

/-- A new session whose memory is all zero. -/
def new_session : DdsDecoder :=
  DdsDecoder_CreateInstance (List.replicate 124 0) (List.replicate 20 0)
    { width := 0, height := 0, depth := 0, mip_levels := 0, array_size := 0,
      frame_count := 0, format := 0, dimension := WICDdsDimension.WICDdsTexture1D,
      alpha_mode := 0 }

/-- A 16 x 16 DXT5 file without mip maps: 128 bytes. -/
def dxt5_stream : IStream :=
  { data := sample_file DDS_MAGIC 124 16 16 0 0 (MAKEFOURCC 'D' 'X' 'T' '5') [], pos := 0 }

/-- A volume of depth 8 with 4 mip levels and an extended header with array
size 3: 148 bytes. -/
def volume_stream : IStream :=
  { data := sample_file DDS_MAGIC 124 64 32 8 4 (MAKEFOURCC 'D' 'X' '1' '0')
      (sample_dxt10_bytes 3), pos := 0 }

/-- The session after the first call of `DdsDecoder_Initialize`, on the volume
file. -/
def volume_session : DdsDecoder := (DdsDecoder_Initialize new_session volume_stream).2

/-- A volume file cut after 140 bytes: the extended header is short. -/
def short_dxt10_stream : IStream :=
  { data := volume_stream.data.take 140, pos := 0 }

/-- A file with the magic and a header whose size field is 100 and whose
FourCC is `DX10`, without the bytes of an extended header. -/
def bad_size_stream : IStream :=
  { data := sample_file DDS_MAGIC 100 16 16 0 0 (MAKEFOURCC 'D' 'X' '1' '0') [], pos := 0 }

/-- A file of 128 bytes that starts with `RIFF`. -/
def riff_stream : IStream :=
  { data := sample_file (MAKEFOURCC 'R' 'I' 'F' 'F') 124 16 16 0 0
      (MAKEFOURCC 'D' 'X' 'T' '5') [], pos := 0 }

/-- A new session after a call of `DdsDecoder_Initialize` on a bad header and
another on a short extended header. -/
def failed_session : DdsDecoder :=
  (DdsDecoder_Initialize (DdsDecoder_Initialize new_session bad_size_stream).2
    short_dxt10_stream).2

/-- A header with the given `caps2` and FourCC, without the FourCC flag, every
other field zero: a header without extended header. -/
def caps2_header (caps2 fourCC : Nat) : DDS_HEADER :=
  { size := 124, flags := 0, height := 16, width := 16, pitchOrLinearSize := 0,
    depth := 0, mipMapCount := 0, reserved1 := List.replicate 11 0,
    ddspf := { size := 32, flags := 0, fourCC := fourCC, rgbBitCount := 0,
               rBitMask := 0, gBitMask := 0, bBitMask := 0, aBitMask := 0 },
    caps := 0, caps2 := caps2, caps3 := 0, caps4 := 0, reserved2 := 0 }

/-- An extended header with the given resource dimension, misc flag and second
misc flags, format 0 and array size 1. -/
def dxt10_header (resourceDimension miscFlag miscFlags2 : Nat) : DDS_HEADER_DXT10 :=
  { dxgiFormat := 0, resourceDimension := resourceDimension, miscFlag := miscFlag,
    arraySize := 1, miscFlags2 := miscFlags2 }

/-- A 16 x 16 file with an extended header whose second misc flags are 8: 148
bytes. -/
def alpha_stream : IStream :=
  { data := sample_file DDS_MAGIC 124 16 16 0 0 (MAKEFOURCC 'D' 'X' '1' '0')
      (List.replicate 12 0 ++ dword_bytes 1 ++ dword_bytes 8), pos := 0 }

/-- The parameters of the file `alpha_stream`. -/
def alpha_parameters : WICDdsParameters :=
  { Width := 16, Height := 16, Depth := 1, MipLevels := 1, ArraySize := 1, DxgiFormat := 0,
    Dimension := WICDdsDimension.WICDdsTexture2D, AlphaMode := 8 }

/-- A DXT5 file whose width field is 0 and whose height field is 16. -/
def zero_width_stream : IStream :=
  { data := sample_file DDS_MAGIC 124 0 16 0 0 (MAKEFOURCC 'D' 'X' 'T' '5') [], pos := 0 }

/-- A DXT5 file whose width field is `0xFFFFFFFF` and whose height field is
16. -/
def huge_width_stream : IStream :=
  { data := sample_file DDS_MAGIC 124 0xFFFFFFFF 16 0 0 (MAKEFOURCC 'D' 'X' 'T' '5') [],
    pos := 0 }

/-- A DXT5 file of width 16 and height 8. -/
def wide_stream : IStream :=
  { data := sample_file DDS_MAGIC 124 16 8 0 0 (MAKEFOURCC 'D' 'X' 'T' '5') [], pos := 0 }

/-- A DXT5 file of width 256 and height 256 with 9 mip levels. -/
def mip_stream : IStream :=
  { data := sample_file DDS_MAGIC 124 256 256 0 9 (MAKEFOURCC 'D' 'X' 'T' '5') [], pos := 0 }

/-- A DXT5 file whose width and height fields are both `0xFFFFFFFF`. -/
def huge_square_stream : IStream :=
  { data := sample_file DDS_MAGIC 124 0xFFFFFFFF 0xFFFFFFFF 0 0
      (MAKEFOURCC 'D' 'X' 'T' '5') [], pos := 0 }

/-- A file with `0x10000` mip levels and an extended header with array size
`0x10000`, depth field 0: 148 bytes. -/
def wrap_stream : IStream :=
  { data := sample_file DDS_MAGIC 124 16 16 0 0x10000 (MAKEFOURCC 'D' 'X' '1' '0')
      (sample_dxt10_bytes 0x10000), pos := 0 }

/-- A DXT5 volume file of depth 8 with 4 mip levels, without extended header:
array size 1 and 15 frames. -/
def deep_stream : IStream :=
  { data := sample_file DDS_MAGIC 124 64 64 8 4 (MAKEFOURCC 'D' 'X' 'T' '5') [], pos := 0 }

/-- The forward formula: the flat index of the address
`(array_index, mip_level, slice_index)`. -/
def flat_index (info : dds_info) (array_index mip_level slice_index : Nat) : Nat :=
  array_index * (info.frame_count / info.array_size) +
    ∑ k in Finset.range mip_level, depth_at info.depth k + slice_index

/-- A DXT5 file whose width and height fields are both `0xFFFFFFFC`, the
largest size whose block grid is computed without error. -/
def edge_square_stream : IStream :=
  { data := sample_file DDS_MAGIC 124 0xFFFFFFFC 0xFFFFFFFC 0 0
      (MAKEFOURCC 'D' 'X' 'T' '5') [], pos := 0 }


/-! ## Lemmas: the mip chain and the frame count -/

theorem halve_pos {x : Nat} (hx : 1 ≤ x) : 1 ≤ halve x := by
  unfold halve
  split
  · omega
  · exact hx

theorem halve_le (x : Nat) : halve x ≤ x := by
  unfold halve
  split
  · exact Nat.div_le_self x 2
  · exact le_rfl

theorem halve_iterate_pos {x : Nat} (hx : 1 ≤ x) (k : Nat) : 1 ≤ halve^[k] x := by
  induction k with
  | zero => simpa using hx
  | succ k ih =>
    rw [Function.iterate_succ_apply']
    exact halve_pos ih

theorem halve_iterate_eq_depth_at {d : Nat} (hd : 1 ≤ d) (k : Nat) :
    halve^[k] d = depth_at d k := by
  induction k with
  | zero => simp [depth_at]; omega
  | succ k ih =>
    rw [Function.iterate_succ_apply', ih]
    unfold depth_at halve
    have hdiv : d / 2 ^ (k + 1) = d / 2 ^ k / 2 := by
      rw [pow_succ, Nat.div_div_eq_div_mul]
    rw [hdiv]
    generalize d / 2 ^ k = q
    rcases Nat.lt_or_ge q 2 with h | h
    · have h0 : q / 2 = 0 := by omega
      have h1 : max 1 q = 1 := by omega
      rw [h0, h1]
      simp
    · have h1 : max 1 q = q := by omega
      have h3 : max 1 (q / 2) = q / 2 := by omega
      rw [h1, h3, if_pos (by omega)]

theorem frame_count_loop_mod (n : Nat) : ∀ frame_count depth : Nat,
    frame_count_loop n frame_count depth % UINT_RANGE =
      (frame_count + ∑ k in Finset.range n, halve^[k] depth) % UINT_RANGE := by
  induction n with
  | zero => intro fc d; simp [frame_count_loop]
  | succ n ih =>
    intro fc d
    rw [frame_count_loop, ih, Finset.sum_range_succ']
    simp only [Function.iterate_succ_apply, Function.iterate_zero, id_eq]
    rw [Nat.add_mod, Nat.mod_mod, ← Nat.add_mod]
    congr 1
    omega

theorem frame_count_loop_lt (n : Nat) : ∀ frame_count depth : Nat,
    frame_count < UINT_RANGE → frame_count_loop n frame_count depth < UINT_RANGE := by
  induction n with
  | zero => intro fc d h; simpa [frame_count_loop] using h
  | succ n ih =>
    intro fc d _
    rw [frame_count_loop]
    exact ih _ _ (Nat.mod_lt _ (by unfold UINT_RANGE; norm_num))

theorem frame_count_loop_eq (n depth : Nat) :
    frame_count_loop n 0 depth = (∑ k in Finset.range n, halve^[k] depth) % UINT_RANGE := by
  have h := frame_count_loop_mod n 0 depth
  rw [Nat.mod_eq_of_lt (frame_count_loop_lt n 0 depth (by unfold UINT_RANGE; norm_num))] at h
  simpa using h

theorem get_dds_info_depth (header : DDS_HEADER) (header_dxt10 : DDS_HEADER_DXT10) :
    (get_dds_info header header_dxt10).depth = if header.depth = 0 then 1 else header.depth := by
  unfold get_dds_info
  by_cases h : header.depth = 0 <;> simp [h]

theorem get_dds_info_mip_levels (header : DDS_HEADER) (header_dxt10 : DDS_HEADER_DXT10) :
    (get_dds_info header header_dxt10).mip_levels =
      if header.mipMapCount = 0 then 1 else header.mipMapCount := by
  unfold get_dds_info
  by_cases h : header.mipMapCount = 0 <;> simp [h]

theorem get_dds_info_array_size (header : DDS_HEADER) (header_dxt10 : DDS_HEADER_DXT10) :
    (get_dds_info header header_dxt10).array_size =
      if has_extended_header header = true ∧ header_dxt10.arraySize ≠ 0
      then header_dxt10.arraySize else 1 := by
  unfold get_dds_info
  by_cases h : header_dxt10.arraySize = 0 <;>
    by_cases e : has_extended_header header = true <;> simp [h, e]

theorem get_dds_info_frame_count (header : DDS_HEADER) (header_dxt10 : DDS_HEADER_DXT10) :
    (get_dds_info header header_dxt10).frame_count =
      if (get_dds_info header header_dxt10).depth = 1 then
        ((get_dds_info header header_dxt10).array_size *
          (get_dds_info header header_dxt10).mip_levels) % UINT_RANGE
      else
        (frame_count_loop (get_dds_info header header_dxt10).mip_levels 0
          (get_dds_info header header_dxt10).depth *
          (get_dds_info header header_dxt10).array_size) % UINT_RANGE := by
  rfl

theorem get_dds_info_depth_pos (header : DDS_HEADER) (header_dxt10 : DDS_HEADER_DXT10) :
    1 ≤ (get_dds_info header header_dxt10).depth := by
  rw [get_dds_info_depth]; split <;> omega

theorem get_dds_info_mip_levels_pos (header : DDS_HEADER) (header_dxt10 : DDS_HEADER_DXT10) :
    1 ≤ (get_dds_info header header_dxt10).mip_levels := by
  rw [get_dds_info_mip_levels]; split <;> omega

theorem get_dds_info_array_size_pos (header : DDS_HEADER) (header_dxt10 : DDS_HEADER_DXT10) :
    1 ≤ (get_dds_info header header_dxt10).array_size := by
  rw [get_dds_info_array_size]; split <;> omega

/-- The frame count as the code computes it, with the mip chain written as
a sum: for a volume the loop adds the depths of the mip levels, otherwise
there is one frame for each mip level. -/
theorem get_dds_info_frame_count_sum (header : DDS_HEADER) (header_dxt10 : DDS_HEADER_DXT10) :
    (get_dds_info header header_dxt10).frame_count =
      ((get_dds_info header header_dxt10).array_size *
        ∑ k in Finset.range (get_dds_info header header_dxt10).mip_levels,
          depth_at (get_dds_info header header_dxt10).depth k) % UINT_RANGE := by
  rw [get_dds_info_frame_count]
  have hd := get_dds_info_depth_pos header header_dxt10
  generalize (get_dds_info header header_dxt10).depth = d at *
  generalize (get_dds_info header header_dxt10).mip_levels = m
  generalize (get_dds_info header header_dxt10).array_size = a
  have hsum : ∑ k in Finset.range m, halve^[k] d = ∑ k in Finset.range m, depth_at d k :=
    Finset.sum_congr rfl fun k _ => halve_iterate_eq_depth_at hd k
  split
  · next h1 =>
    subst h1
    have : ∑ k in Finset.range m, depth_at 1 k = m := by
      rw [← hsum]
      have : ∀ k, halve^[k] 1 = 1 := by
        intro k
        induction k with
        | zero => rfl
        | succ k ih => rw [Function.iterate_succ_apply', ih]; rfl
      simp [this]
    rw [this]
  · rw [frame_count_loop_eq, hsum, Nat.mod_mul_mod, Nat.mul_comm]

theorem depth_at_pos (d k : Nat) : 1 ≤ depth_at d k := by
  unfold depth_at; omega

theorem le_sum_depth_at (d n : Nat) : n ≤ ∑ k in Finset.range n, depth_at d k := by
  induction n with
  | zero => simp
  | succ n ih =>
    rw [Finset.sum_range_succ]
    have := depth_at_pos d n
    omega

theorem sum_depth_at_mono (d : Nat) {m n : Nat} (h : m ≤ n) :
    ∑ k in Finset.range m, depth_at d k ≤ ∑ k in Finset.range n, depth_at d k :=
  Finset.sum_le_sum_of_subset (Finset.range_mono h)

/-- The walk over the mip levels stops, within `slice_index + 1` evaluations
of its condition, at the level `j` whose slices hold `slice_index`. -/
theorem mip_walk_spec (fuel : Nat) : ∀ slice_index mip_level depth : Nat,
    1 ≤ depth → slice_index < fuel → mip_level + slice_index < UINT_RANGE →
    ∃ j s, mip_walk fuel slice_index mip_level depth = some (mip_level + j, s) ∧
      s < halve^[j] depth ∧
      slice_index = ∑ k in Finset.range j, halve^[k] depth + s := by
  induction fuel with
  | zero => intro s m d _ hs; omega
  | succ fuel ih =>
    intro s m d hd hs hm
    rw [mip_walk]
    by_cases hge : s ≥ d
    · rw [if_pos hge]
      have hm1 : (m + 1) % UINT_RANGE = m + 1 := Nat.mod_eq_of_lt (by omega)
      rw [hm1]
      obtain ⟨j, s', hw, hlt, hsum⟩ :=
        ih (s - d) (m + 1) (halve d) (halve_pos hd) (by omega) (by omega)
      refine ⟨j + 1, s', ?_, ?_, ?_⟩
      · rw [hw]; congr 2; omega
      · rw [Function.iterate_succ_apply]; exact hlt
      · rw [Finset.sum_range_succ']
        simp only [Function.iterate_succ_apply, Function.iterate_zero, id_eq]
        omega
    · rw [if_neg hge]
      exact ⟨0, s, by simp, by simpa using hge, by simp⟩

/-- The index decomposition on an `info` written by `get_dds_info` whose frame
count did not wrap: with enough fuel it returns the array index
`index / frame_per_texture` and the mip level and slice that hold the
remainder. -/
theorem get_frame_address_spec (header : DDS_HEADER) (header_dxt10 : DDS_HEADER_DXT10)
    (info : dds_info) (hinfo : info = get_dds_info header header_dxt10)
    (hwrap : exact_frame_count info < 2 ^ 32) (fuel index : Nat)
    (hfuel : index % (info.frame_count / info.array_size) < fuel) :
    info.frame_count = exact_frame_count info ∧
    info.frame_count / info.array_size =
      ∑ k in Finset.range info.mip_levels, depth_at info.depth k ∧
    ∃ m s, get_frame_address fuel info index =
        Outcome.ok (index / (info.frame_count / info.array_size), m, s) ∧
      m < info.mip_levels ∧ s < depth_at info.depth m ∧
      index % (info.frame_count / info.array_size) =
        ∑ k in Finset.range m, depth_at info.depth k + s := by
  have hd : 1 ≤ info.depth := hinfo ▸ get_dds_info_depth_pos header header_dxt10
  have hm : 1 ≤ info.mip_levels := hinfo ▸ get_dds_info_mip_levels_pos header header_dxt10
  have ha : 1 ≤ info.array_size := hinfo ▸ get_dds_info_array_size_pos header header_dxt10
  have hfc : info.frame_count = exact_frame_count info := by
    have h := get_dds_info_frame_count_sum header header_dxt10
    rw [← hinfo] at h
    rw [h]
    exact Nat.mod_eq_of_lt hwrap
  unfold exact_frame_count at hfc hwrap
  have hfpt : info.frame_count / info.array_size =
      ∑ k in Finset.range info.mip_levels, depth_at info.depth k := by
    rw [hfc]; exact Nat.mul_div_cancel_left _ (by omega)
  refine ⟨hfc, hfpt, ?_⟩
  rw [hfpt] at hfuel ⊢
  have hSpos : 1 ≤ ∑ k in Finset.range info.mip_levels, depth_at info.depth k :=
    le_trans hm (le_sum_depth_at _ _)
  have hSlt : ∑ k in Finset.range info.mip_levels, depth_at info.depth k < 2 ^ 32 :=
    lt_of_le_of_lt (Nat.le_mul_of_pos_left _ (by omega)) hwrap
  have hr := Nat.mod_lt index (show 0 < ∑ k in Finset.range info.mip_levels,
    depth_at info.depth k by omega)
  obtain ⟨j, s, hw, hlt, hsum⟩ := mip_walk_spec fuel _ 0 info.depth hd hfuel
    (by unfold UINT_RANGE; omega)
  have hiter : ∀ k, halve^[k] info.depth = depth_at info.depth k :=
    fun k => halve_iterate_eq_depth_at hd k
  rw [hiter] at hlt
  have hcongr : ∑ k in Finset.range j, halve^[k] info.depth =
      ∑ k in Finset.range j, depth_at info.depth k :=
    Finset.sum_congr rfl fun k _ => hiter k
  rw [hcongr] at hsum
  have hj : j < info.mip_levels := by
    by_contra hcon
    have := sum_depth_at_mono info.depth (Nat.le_of_not_lt hcon)
    omega
  refine ⟨j, s, ?_, hj, hlt, hsum⟩
  unfold get_frame_address
  rw [if_neg (by omega)]
  simp only [hfpt]
  rw [if_neg (by omega), hw]
  simp

theorem getD_take_drop (data : List Byte) (a n i : Nat) (h : i < n) :
    ((data.drop a).take n).getD i 0 = data.getD (a + i) 0 := by
  simp [List.getD_eq_getElem?_getD, List.getElem?_take, h, List.getElem?_drop]

theorem read_dword_take_drop (data : List Byte) (a n off : Nat) (h : off + 4 ≤ n) :
    read_dword ((data.drop a).take n) off = read_dword data (a + off) := by
  unfold read_dword
  rw [getD_take_drop _ _ _ _ (by omega), getD_take_drop _ _ _ _ (by omega),
    getD_take_drop _ _ _ _ (by omega), getD_take_drop _ _ _ _ (by omega)]
  simp only [Nat.add_assoc]

theorem getD_store_bytes (bytes buffer : List Byte) (i : Nat) (h : i < bytes.length) :
    (store_bytes bytes buffer).getD i 0 = bytes.getD i 0 := by
  unfold store_bytes
  simp [List.getD_eq_getElem?_getD, List.getElem?_append_left h]

theorem read_dword_store_bytes (bytes buffer : List Byte) (off : Nat)
    (h : off + 4 ≤ bytes.length) :
    read_dword (store_bytes bytes buffer) off = read_dword bytes off := by
  unfold read_dword
  rw [getD_store_bytes _ _ _ (by omega), getD_store_bytes _ _ _ (by omega),
    getD_store_bytes _ _ _ (by omega), getD_store_bytes _ _ _ (by omega)]

theorem DDS_HEADER_ofBytes_store_bytes (bytes buffer : List Byte)
    (h : bytes.length = 124) :
    DDS_HEADER.ofBytes (store_bytes bytes buffer) = DDS_HEADER.ofBytes bytes := by
  unfold DDS_HEADER.ofBytes DDS_PIXELFORMAT.ofBytes
  have e : ∀ off, off + 4 ≤ 124 →
      read_dword (store_bytes bytes buffer) off = read_dword bytes off :=
    fun off ho => read_dword_store_bytes bytes buffer off (by omega)
  have hres : (List.range 11).map (fun k => read_dword (store_bytes bytes buffer) (28 + 4 * k))
      = (List.range 11).map (fun k => read_dword bytes (28 + 4 * k)) := by
    apply List.map_congr_left
    intro k hk
    rw [List.mem_range] at hk
    exact e _ (by omega)
  rw [hres]
  simp only [e _ (show 0 + 4 ≤ 124 by omega), e 4 (by omega), e 8 (by omega), e 12 (by omega), e 16 (by omega),
    e 20 (by omega), e 24 (by omega), e 72 (by omega), e (72 + 4) (by omega),
    e (72 + 8) (by omega), e (72 + 12) (by omega), e (72 + 16) (by omega),
    e (72 + 20) (by omega), e (72 + 24) (by omega), e (72 + 28) (by omega),
    e 104 (by omega), e 108 (by omega), e 112 (by omega), e 116 (by omega), e 120 (by omega)]

theorem DDS_HEADER_DXT10_ofBytes_store_bytes (bytes buffer : List Byte)
    (h : bytes.length = 20) :
    DDS_HEADER_DXT10.ofBytes (store_bytes bytes buffer) = DDS_HEADER_DXT10.ofBytes bytes := by
  unfold DDS_HEADER_DXT10.ofBytes
  have e : ∀ off, off + 4 ≤ 20 →
      read_dword (store_bytes bytes buffer) off = read_dword bytes off :=
    fun off ho => read_dword_store_bytes bytes buffer off (by omega)
  simp only [e 0 (by omega), e 4 (by omega), e 8 (by omega), e 12 (by omega), e 16 (by omega)]

theorem IStream_Read_not_FAILED (pIStream : IStream) (cb : Nat) :
    FAILED (IStream_Read pIStream cb).1 = false := by
  unfold IStream_Read
  dsimp only
  split <;> rfl

theorem IStream_Read_bytes (pIStream : IStream) (cb : Nat) :
    (IStream_Read pIStream cb).2.1 = (pIStream.data.drop pIStream.pos).take cb := rfl

theorem IStream_Read_stream (pIStream : IStream) (cb : Nat) :
    (IStream_Read pIStream cb).2.2 =
      { data := pIStream.data,
        pos := pIStream.pos + ((pIStream.data.drop pIStream.pos).take cb).length } := rfl

theorem IStream_Read_hr (pIStream : IStream) (cb : Nat)
    (h : ((pIStream.data.drop pIStream.pos).take cb).length = cb) :
    (IStream_Read pIStream cb).1 = HRESULT.S_OK := by
  unfold IStream_Read
  dsimp only
  rw [if_pos h]

/-- Initialization of a session that is not initialized, by the length and
the content of the stream. -/
theorem DdsDecoder_Initialize_eq (This : DdsDecoder) (pIStream : IStream)
    (hinit : This.initialized = false) :
    DdsDecoder_Initialize This pIStream =
      if pIStream.data.length < 4 then (HRESULT.WINCODEC_ERR_STREAMREAD, This)
      else if read_dword pIStream.data 0 ≠ DDS_MAGIC then
        (HRESULT.WINCODEC_ERR_UNKNOWNIMAGEFORMAT, This)
      else if pIStream.data.length < 128 then
        (HRESULT.WINCODEC_ERR_STREAMREAD,
          { This with header := store_bytes ((pIStream.data.drop 4).take 124) This.header })
      else if (stream_header pIStream).size ≠ 124 then
        (HRESULT.WINCODEC_ERR_BADHEADER,
          { This with header := store_bytes ((pIStream.data.drop 4).take 124) This.header })
      else if has_extended_header (stream_header pIStream) = true then
        if pIStream.data.length < 148 then
          (HRESULT.WINCODEC_ERR_STREAMREAD,
            { This with
              header := store_bytes ((pIStream.data.drop 4).take 124) This.header,
              header_dxt10 :=
                store_bytes ((pIStream.data.drop 128).take 20) This.header_dxt10 })
        else
          (HRESULT.S_OK,
            { initialized := true,
              stream := some { data := pIStream.data, pos := 148 },
              header := store_bytes ((pIStream.data.drop 4).take 124) This.header,
              header_dxt10 :=
                store_bytes ((pIStream.data.drop 128).take 20) This.header_dxt10,
              info := get_dds_info (stream_header pIStream) (stream_header_dxt10 pIStream) })
      else
        (HRESULT.S_OK,
          { initialized := true,
            stream := some { data := pIStream.data, pos := 128 },
            header := store_bytes ((pIStream.data.drop 4).take 124) This.header,
            header_dxt10 := This.header_dxt10,
            info := get_dds_info (stream_header pIStream)
              (DDS_HEADER_DXT10.ofBytes This.header_dxt10) }) := by
  unfold DdsDecoder_Initialize
  rw [if_neg (by simp [hinit])]
  simp only [IStream_Seek, IStream_Read_not_FAILED, IStream_Read_bytes, IStream_Read_stream,
    sizeof_DWORD, sizeof_DDS_HEADER, sizeof_DDS_HEADER_DXT10, List.drop_zero]
  rw [if_neg (by decide), if_neg (by decide)]
  by_cases h4 : pIStream.data.length < 4
  · have hl : (List.take 4 pIStream.data).length ≠ 4 := by
      simp only [List.length_take]; omega
    rw [if_pos hl, if_pos h4]
  · have hl4 : (List.take 4 pIStream.data).length = 4 := by
      simp only [List.length_take]; omega
    have hmagic : read_dword (List.take 4 pIStream.data) 0 = read_dword pIStream.data 0 := by
      have := read_dword_take_drop pIStream.data 0 4 0 (by omega)
      simpa using this
    rw [if_neg (by omega), if_neg h4, hmagic]
    by_cases hm : read_dword pIStream.data 0 ≠ DDS_MAGIC
    · rw [if_pos hm, if_pos hm]
    · rw [if_neg hm, if_neg hm, if_neg (by decide)]
      simp only [hl4, Nat.zero_add]
      by_cases h128 : pIStream.data.length < 128
      · have hl : (List.take 124 (List.drop 4 pIStream.data)).length ≠ 124 := by
          simp only [List.length_take, List.length_drop]; omega
        rw [if_pos hl, if_pos h128]
      · have hl124 : (List.take 124 (List.drop 4 pIStream.data)).length = 124 := by
          simp only [List.length_take, List.length_drop]; omega
        have hhdr : DDS_HEADER.ofBytes
            (store_bytes (List.take 124 (List.drop 4 pIStream.data)) This.header) =
            stream_header pIStream :=
          DDS_HEADER_ofBytes_store_bytes _ _ hl124
        rw [if_neg (by omega), if_neg h128, hhdr]
        by_cases hsize : (stream_header pIStream).size ≠ 124
        · rw [if_pos hsize, if_pos hsize]
        · rw [if_neg hsize, if_neg hsize]
          by_cases hext : has_extended_header (stream_header pIStream) = true
          · rw [if_pos hext, if_pos hext, if_neg (by decide)]
            simp only [hl124]
            by_cases h148 : pIStream.data.length < 148
            · have hl : (List.take 20 (List.drop (4 + 124) pIStream.data)).length ≠ 20 := by
                simp only [List.length_take, List.length_drop]; omega
              rw [if_pos hl, if_pos h148]
            · have hl20 : (List.take 20 (List.drop (4 + 124) pIStream.data)).length = 20 := by
                simp only [List.length_take, List.length_drop]; omega
              have hdxt : DDS_HEADER_DXT10.ofBytes
                  (store_bytes (List.take 20 (List.drop (4 + 124) pIStream.data))
                    This.header_dxt10) = stream_header_dxt10 pIStream :=
                DDS_HEADER_DXT10_ofBytes_store_bytes _ _ hl20
              rw [if_neg (by omega), if_neg h148, hdxt, IStream_Read_hr _ _ hl20]
              simp only [hl20]
          · rw [if_neg hext, if_neg hext,
              IStream_Read_hr { data := pIStream.data, pos := 4 } 124 hl124]
            simp only [hl124]

/-! ## Lemmas: the session -/

theorem DdsDecoder_Initialize_of_initialized (This : DdsDecoder) (pIStream : IStream)
    (hinit : This.initialized = true) :
    DdsDecoder_Initialize This pIStream = (HRESULT.WINCODEC_ERR_WRONGSTATE, This) := by
  unfold DdsDecoder_Initialize
  rw [if_pos hinit]

/-- A call on a session that is not initialized returns `S_OK` exactly when
it sets the flag. -/
theorem DdsDecoder_Initialize_flag (This : DdsDecoder) (pIStream : IStream)
    (hinit : This.initialized = false) :
    (DdsDecoder_Initialize This pIStream).2.initialized = true ↔
      (DdsDecoder_Initialize This pIStream).1 = HRESULT.S_OK := by
  rw [DdsDecoder_Initialize_eq This pIStream hinit]
  split_ifs <;> simp [hinit]

/-- After a call that set the flag, `info` is `get_dds_info` of the two
headers held by the session. -/
theorem DdsDecoder_Initialize_info (This : DdsDecoder) (pIStream : IStream)
    (hinit : This.initialized = false)
    (hok : (DdsDecoder_Initialize This pIStream).2.initialized = true) :
    (DdsDecoder_Initialize This pIStream).2.info =
      get_dds_info (DDS_HEADER.ofBytes (DdsDecoder_Initialize This pIStream).2.header)
        (DDS_HEADER_DXT10.ofBytes (DdsDecoder_Initialize This pIStream).2.header_dxt10) := by
  rw [DdsDecoder_Initialize_eq This pIStream hinit] at hok ⊢
  have h124 : ¬ pIStream.data.length < 128 →
      (List.take 124 (List.drop 4 pIStream.data)).length = 124 := by
    intro h; simp only [List.length_take, List.length_drop]; omega
  have h20 : ¬ pIStream.data.length < 148 →
      (List.take 20 (List.drop 128 pIStream.data)).length = 20 := by
    intro h; simp only [List.length_take, List.length_drop]; omega
  split_ifs at hok ⊢ with c1 c2 c3 c4 c5 c6
  all_goals first
    | (simp [hinit] at hok; done)
    | (dsimp only
       rw [DDS_HEADER_ofBytes_store_bytes _ _ (h124 c3),
         DDS_HEADER_DXT10_ofBytes_store_bytes _ _ (h20 c6)]
       rfl)
    | (dsimp only
       rw [DDS_HEADER_ofBytes_store_bytes _ _ (h124 c3)]
       rfl)

/-- On every session that exists and is initialized, `info` is `get_dds_info`
of the two headers held by the session. -/
theorem Reachable_info (This : DdsDecoder) (hreach : Reachable This)
    (hinit : This.initialized = true) :
    This.info = get_dds_info (DDS_HEADER.ofBytes This.header)
      (DDS_HEADER_DXT10.ofBytes This.header_dxt10) := by
  induction hreach with
  | create header header_dxt10 info => simp [DdsDecoder_CreateInstance] at hinit
  | step This pIStream _ ih =>
    by_cases h : This.initialized = true
    · rw [DdsDecoder_Initialize_of_initialized This pIStream h] at hinit ⊢
      exact ih hinit
    · exact DdsDecoder_Initialize_info This pIStream (by simpa using h) hinit

theorem depth_at_le (d k : Nat) (hd : 1 ≤ d) : depth_at d k ≤ d := by
  unfold depth_at
  have := Nat.div_le_self d (2 ^ k)
  omega

theorem MAKEFOURCC_DX10 : MAKEFOURCC 'D' 'X' '1' '0' = 0x30315844 := by decide

theorem has_extended_header_iff (header : DDS_HEADER) :
    has_extended_header header = true ↔
      header.ddspf.flags &&& 0x4 ≠ 0 ∧ header.ddspf.fourCC = 0x30315844 := by
  unfold has_extended_header
  rw [MAKEFOURCC_DX10]
  simp [DDPF_FOURCC]

/-- Without extended header `get_dds_info` does not read `header_dxt10`. -/
theorem get_dds_info_without_dxt10 (header : DDS_HEADER)
    (header_dxt10 other : DDS_HEADER_DXT10) (h : ¬ has_extended_header header = true) :
    get_dds_info header header_dxt10 = get_dds_info header other := by
  unfold get_dds_info
  simp [h]

/-- The address check, the mip size and the frame of `DdsDecoder_Dds_GetFrame`
on an initialized session, with an output pointer. -/
theorem DdsDecoder_Dds_GetFrame_eq (This : DdsDecoder) (hinit : This.initialized = true)
    (arrayIndex mipLevel sliceIndex : Nat) (HeapAlloc : Bool) :
    DdsDecoder_Dds_GetFrame This arrayIndex mipLevel sliceIndex true HeapAlloc =
      if arrayIndex ≥ This.info.array_size ∨ mipLevel ≥ This.info.mip_levels ∨
          sliceIndex ≥ This.info.depth then Outcome.fail HRESULT.E_INVALIDARG
      else if HeapAlloc = false then Outcome.fail HRESULT.E_OUTOFMEMORY
      else Outcome.ok (fill_frame_info
        (mip_size_loop mipLevel This.info.width This.info.height).1
        (mip_size_loop mipLevel This.info.width This.info.height).2 This.info.format) := by
  unfold DdsDecoder_Dds_GetFrame
  simp only [hinit, Bool.not_true, Bool.false_eq_true, if_false]
  split_ifs <;> simp_all

/-- The size field of the header of a stream is the `DWORD` at offset 4. -/
theorem stream_header_size (pIStream : IStream) :
    (stream_header pIStream).size = read_dword pIStream.data 4 :=
  read_dword_take_drop pIStream.data 4 124 0 (by omega)

/-- A call that fails leaves the flag as it was. -/
theorem DdsDecoder_Initialize_failed_flag (This : DdsDecoder) (pIStream : IStream)
    (hfail : FAILED (DdsDecoder_Initialize This pIStream).1 = true) :
    (DdsDecoder_Initialize This pIStream).2.initialized = This.initialized := by
  by_cases hinit : This.initialized = true
  · rw [DdsDecoder_Initialize_of_initialized This pIStream hinit]
  · have hfalse : This.initialized = false := by simpa using hinit
    have hflag := DdsDecoder_Initialize_flag This pIStream hfalse
    rw [hfalse]
    by_contra hcon
    have hset : (DdsDecoder_Initialize This pIStream).2.initialized = true := by
      simpa using hcon
    rw [hflag.mp hset] at hfail
    exact absurd hfail (by decide)

theorem NeverInitialized_flag (This : DdsDecoder) (h : NeverInitialized This) :
    This.initialized = false := by
  induction h with
  | create header header_dxt10 info => rfl
  | failed This pIStream _ hfail ih =>
    rw [DdsDecoder_Initialize_failed_flag This pIStream hfail]
    exact ih

/-- The code returned for a stream is the same on every session that is not
initialized. -/
theorem DdsDecoder_Initialize_hr_eq (This That : DdsDecoder) (pIStream : IStream)
    (hthis : This.initialized = false) (hthat : That.initialized = false) :
    (DdsDecoder_Initialize This pIStream).1 = (DdsDecoder_Initialize That pIStream).1 := by
  rw [DdsDecoder_Initialize_eq This pIStream hthis,
    DdsDecoder_Initialize_eq That pIStream hthat]
  split_ifs <;> rfl

/-- A call that returns `S_OK` was made on a session that was not initialized,
on a stream that holds the headers; it sets the flag and writes `info` from
the headers of the stream. -/
theorem DdsDecoder_Initialize_success (This : DdsDecoder) (pIStream : IStream)
    (hok : (DdsDecoder_Initialize This pIStream).1 = HRESULT.S_OK) :
    This.initialized = false ∧
    (DdsDecoder_Initialize This pIStream).2.initialized = true ∧
    (DdsDecoder_Initialize This pIStream).2.info =
      get_dds_info (stream_header pIStream) (stream_header_dxt10 pIStream) ∧
    128 ≤ pIStream.data.length ∧
    (has_extended_header (stream_header pIStream) = true → 148 ≤ pIStream.data.length) := by
  have hinit : This.initialized = false := by
    by_contra hcon
    have htrue : This.initialized = true := by simpa using hcon
    rw [DdsDecoder_Initialize_of_initialized This pIStream htrue] at hok
    exact absurd hok (by simp)
  refine ⟨hinit, (DdsDecoder_Initialize_flag This pIStream hinit).mpr hok, ?_⟩
  rw [DdsDecoder_Initialize_eq This pIStream hinit] at hok ⊢
  by_cases c1 : pIStream.data.length < 4
  · rw [if_pos c1] at hok; exact absurd hok (by simp)
  rw [if_neg c1] at hok ⊢
  by_cases c2 : read_dword pIStream.data 0 ≠ DDS_MAGIC
  · rw [if_pos c2] at hok; exact absurd hok (by simp)
  rw [if_neg c2] at hok ⊢
  by_cases c3 : pIStream.data.length < 128
  · rw [if_pos c3] at hok; exact absurd hok (by simp)
  rw [if_neg c3] at hok ⊢
  by_cases c4 : (stream_header pIStream).size ≠ 124
  · rw [if_pos c4] at hok; exact absurd hok (by simp)
  rw [if_neg c4] at hok ⊢
  by_cases c5 : has_extended_header (stream_header pIStream) = true
  · rw [if_pos c5] at hok ⊢
    by_cases c6 : pIStream.data.length < 148
    · rw [if_pos c6] at hok; exact absurd hok (by simp)
    · rw [if_neg c6]
      exact ⟨rfl, by omega, fun _ => by omega⟩
  · rw [if_neg c5]
    exact ⟨get_dds_info_without_dxt10 _ _ _ c5, by omega, fun h => absurd h c5⟩

/-- The fields of the header of a stream, by their offsets in the stream. -/
theorem stream_header_offsets (pIStream : IStream) :
    (stream_header pIStream).height = read_dword pIStream.data 12 ∧
    (stream_header pIStream).width = read_dword pIStream.data 16 ∧
    (stream_header pIStream).depth = read_dword pIStream.data 24 ∧
    (stream_header pIStream).mipMapCount = read_dword pIStream.data 28 ∧
    (stream_header pIStream).ddspf.flags = read_dword pIStream.data 80 ∧
    (stream_header pIStream).ddspf.fourCC = read_dword pIStream.data 84 ∧
    (stream_header pIStream).caps2 = read_dword pIStream.data 112 :=
  ⟨read_dword_take_drop pIStream.data 4 124 8 (by omega),
    read_dword_take_drop pIStream.data 4 124 12 (by omega),
    read_dword_take_drop pIStream.data 4 124 20 (by omega),
    read_dword_take_drop pIStream.data 4 124 24 (by omega),
    read_dword_take_drop pIStream.data 4 124 76 (by omega),
    read_dword_take_drop pIStream.data 4 124 80 (by omega),
    read_dword_take_drop pIStream.data 4 124 108 (by omega)⟩

/-- The array size of the extended header of a stream is the `DWORD` at offset
140. -/
theorem stream_header_dxt10_arraySize (pIStream : IStream) :
    (stream_header_dxt10 pIStream).arraySize = read_dword pIStream.data 140 :=
  read_dword_take_drop pIStream.data 128 20 12 (by omega)

theorem halve_iterate_zero (k : Nat) : halve^[k] 0 = 0 := by
  induction k with
  | zero => rfl
  | succ k ih => rw [Function.iterate_succ_apply', ih]; rfl

/-- The size loop halves the width and the height `n` times. -/
theorem mip_size_loop_eq (n : Nat) : ∀ width height : Nat,
    mip_size_loop n width height = (halve^[n] width, halve^[n] height) := by
  induction n with
  | zero => intro w h; rfl
  | succ n ih =>
    intro w h
    rw [mip_size_loop, ih]
    simp only [Function.iterate_succ_apply]

/-- A base size halved `k` times: 0 stays 0, every other size is floored at
1. -/
theorem halve_iterate_eq (x k : Nat) :
    halve^[k] x = if x = 0 then 0 else max 1 (x / 2 ^ k) := by
  by_cases hx : x = 0
  · rw [if_pos hx, hx]; exact halve_iterate_zero k
  · rw [if_neg hx, halve_iterate_eq_depth_at (by omega)]; rfl

/-- In 32-bit arithmetic `(w + 4 - 1) / 4` is `(w + 3) / 4` as long as `w + 3`
fits; at `w = 2 ^ 32 - 4` both `w + 4` and the subtraction wrap and the
quotient is still right. -/
theorem blocks_eq (w : Nat) (hw : w + 3 < UINT_RANGE) :
    ((w + 4) % UINT_RANGE + UINT_RANGE - 1) % UINT_RANGE / 4 = (w + 3) / 4 := by
  unfold UINT_RANGE at hw ⊢
  omega

/-- Whatever the walk over the mip levels returns, with any fuel, is the level
`j` whose slices hold `slice_index` and the slice within it. -/
theorem mip_walk_sound (fuel : Nat) : ∀ slice_index mip_level depth m s : Nat,
    1 ≤ depth → mip_level + slice_index < UINT_RANGE →
    mip_walk fuel slice_index mip_level depth = some (m, s) →
    ∃ j, m = mip_level + j ∧ s < halve^[j] depth ∧
      slice_index = ∑ k in Finset.range j, halve^[k] depth + s := by
  induction fuel with
  | zero => intro s0 m0 d m s _ _ h; simp [mip_walk] at h
  | succ fuel ih =>
    intro s0 m0 d m s hd hm h
    rw [mip_walk] at h
    by_cases hge : s0 ≥ d
    · rw [if_pos hge, Nat.mod_eq_of_lt (show m0 + 1 < UINT_RANGE by omega)] at h
      obtain ⟨j, hj, hlt, hsum⟩ :=
        ih (s0 - d) (m0 + 1) (halve d) m s (halve_pos hd) (by omega) h
      refine ⟨j + 1, by omega, ?_, ?_⟩
      · rw [Function.iterate_succ_apply]; exact hlt
      · rw [Finset.sum_range_succ']
        simp only [Function.iterate_succ_apply, Function.iterate_zero, id_eq]
        omega
    · rw [if_neg hge] at h
      injection h with h
      injection h with h1 h2
      subst h1 h2
      exact ⟨0, rfl, by simpa using hge, by simp⟩

/-- A position in the mip chain has one mip level and one slice. -/
theorem mip_address_unique (d : Nat) {m m' s s' : Nat}
    (hs : s < depth_at d m) (hs' : s' < depth_at d m')
    (h : ∑ k in Finset.range m, depth_at d k + s =
      ∑ k in Finset.range m', depth_at d k + s') :
    m = m' ∧ s = s' := by
  have hsucc : ∀ n, ∑ k in Finset.range (n + 1), depth_at d k =
      ∑ k in Finset.range n, depth_at d k + depth_at d n :=
    fun n => Finset.sum_range_succ _ n
  rcases Nat.lt_trichotomy m m' with hlt | heq | hgt
  · have hmono := sum_depth_at_mono d (show m + 1 ≤ m' from hlt)
    have := hsucc m
    omega
  · subst heq
    exact ⟨rfl, by omega⟩
  · have hmono := sum_depth_at_mono d (show m' + 1 ≤ m from hgt)
    have := hsucc m'
    omega

/-- On every session that exists and is initialized the depth is at least 1
and the frame count is a 32-bit value. -/
theorem Reachable_bounds (This : DdsDecoder) (hreach : Reachable This)
    (hinit : This.initialized = true) :
    1 ≤ This.info.depth ∧ 1 ≤ This.info.mip_levels ∧ 1 ≤ This.info.array_size ∧
    This.info.frame_count < UINT_RANGE := by
  have hinfo := Reachable_info This hreach hinit
  rw [hinfo]
  refine ⟨get_dds_info_depth_pos _ _, get_dds_info_mip_levels_pos _ _,
    get_dds_info_array_size_pos _ _, ?_⟩
  rw [get_dds_info_frame_count_sum]
  exact Nat.mod_lt _ (by unfold UINT_RANGE; norm_num)

/-- The index decomposition returns whenever the depth is at least 1, the
divisor is not zero and the fuel exceeds the remainder; the mip level it
returns is the number of iterations of the loop, which is at most the
remainder. -/
theorem get_frame_address_terminates (info : dds_info) (hd : 1 ≤ info.depth)
    (hfc : info.frame_count < UINT_RANGE)
    (hdiv : info.frame_count / info.array_size ≠ 0) (fuel index : Nat)
    (hfuel : index % (info.frame_count / info.array_size) < fuel) :
    ∃ m s, get_frame_address fuel info index =
        Outcome.ok (index / (info.frame_count / info.array_size), m, s) ∧
      m ≤ index % (info.frame_count / info.array_size) ∧
      s < halve^[m] info.depth := by
  have ha : info.array_size ≠ 0 := by
    intro h0
    rw [h0, Nat.div_zero] at hdiv
    exact hdiv rfl
  have hrem : index % (info.frame_count / info.array_size) <
      info.frame_count / info.array_size := Nat.mod_lt _ (Nat.pos_of_ne_zero hdiv)
  have hle : info.frame_count / info.array_size ≤ info.frame_count := Nat.div_le_self _ _
  obtain ⟨j, s, hw, hlt, hsum⟩ := mip_walk_spec fuel _ 0 info.depth hd hfuel (by omega)
  have hjle : j ≤ ∑ k in Finset.range j, halve^[k] info.depth := by
    have hcard : ∑ _k in Finset.range j, 1 ≤ ∑ k in Finset.range j, halve^[k] info.depth :=
      Finset.sum_le_sum fun k _ => halve_iterate_pos hd k
    simpa using hcard
  refine ⟨j, s, ?_, by omega, hlt⟩
  unfold get_frame_address
  rw [if_neg ha]
  simp only [if_neg hdiv, hw]
  simp

/-- Whatever the index decomposition returns, with any fuel, has a slice index
below the depth of the mip level it returns. -/
theorem get_frame_address_sound (info : dds_info) (hd : 1 ≤ info.depth)
    (hfc : info.frame_count < UINT_RANGE) (fuel index a m s : Nat)
    (h : get_frame_address fuel info index = Outcome.ok (a, m, s)) :
    s < halve^[m] info.depth := by
  unfold get_frame_address at h
  by_cases ha : info.array_size = 0
  · rw [if_pos ha] at h; exact absurd h (by simp)
  rw [if_neg ha] at h
  by_cases hdiv : info.frame_count / info.array_size = 0
  · simp only [if_pos hdiv] at h; exact absurd h (by simp)
  simp only [if_neg hdiv] at h
  have hrem : index % (info.frame_count / info.array_size) <
      info.frame_count / info.array_size := Nat.mod_lt _ (Nat.pos_of_ne_zero hdiv)
  have hle : info.frame_count / info.array_size ≤ info.frame_count := Nat.div_le_self _ _
  cases hw : mip_walk fuel (index % (info.frame_count / info.array_size)) 0 info.depth with
  | none => rw [hw] at h; exact absurd h (by simp)
  | some x =>
    obtain ⟨m', s'⟩ := x
    rw [hw] at h
    simp only [Outcome.ok.injEq, Prod.mk.injEq] at h
    obtain ⟨-, hm, hs⟩ := h
    subst hm hs
    obtain ⟨j, hj, hlt, -⟩ := mip_walk_sound fuel _ 0 info.depth m' s' hd (by omega) hw
    have : m' = j := by omega
    rw [this]
    exact hlt

/-- The flat index of a valid address is below the frame count, and the index
decomposition gives the address back. -/
theorem get_frame_address_flat_index (header : DDS_HEADER) (header_dxt10 : DDS_HEADER_DXT10)
    (info : dds_info) (hinfo : info = get_dds_info header header_dxt10)
    (hwrap : exact_frame_count info < 2 ^ 32) (a m s : Nat)
    (ha : a < info.array_size) (hm : m < info.mip_levels)
    (hs : s < depth_at info.depth m) (fuel : Nat)
    (hfuel : flat_index info a m s % (info.frame_count / info.array_size) < fuel) :
    flat_index info a m s < info.frame_count ∧
    flat_index info a m s % (info.frame_count / info.array_size) =
      ∑ k in Finset.range m, depth_at info.depth k + s ∧
    get_frame_address fuel info (flat_index info a m s) = Outcome.ok (a, m, s) := by
  obtain ⟨hfc, hfpt, m1, s1, haddr, -, hs1, hrem⟩ :=
    get_frame_address_spec header header_dxt10 info hinfo hwrap fuel
      (flat_index info a m s) hfuel
  have hsucc : ∑ k in Finset.range (m + 1), depth_at info.depth k =
      ∑ k in Finset.range m, depth_at info.depth k + depth_at info.depth m :=
    Finset.sum_range_succ _ m
  have hmono := sum_depth_at_mono info.depth (show m + 1 ≤ info.mip_levels from hm)
  have hr : ∑ k in Finset.range m, depth_at info.depth k + s <
      info.frame_count / info.array_size := by
    rw [hfpt]; omega
  have hflat : flat_index info a m s =
      (∑ k in Finset.range m, depth_at info.depth k + s) +
        info.frame_count / info.array_size * a := by
    unfold flat_index
    rw [Nat.mul_comm a]
    omega
  have hdm := (Nat.div_mod_unique (Nat.lt_of_le_of_lt (Nat.zero_le _) hr)).mpr
    ⟨hflat.symm, hr⟩
  rw [hdm.1] at haddr
  rw [hdm.2] at hrem
  obtain ⟨hmeq, hseq⟩ := mip_address_unique info.depth hs hs1 hrem
  subst hmeq hseq
  refine ⟨?_, hdm.2, haddr⟩
  have hcount : info.frame_count =
      info.frame_count / info.array_size * info.array_size := by
    rw [hfpt, Nat.mul_comm]; exact hfc
  have hmul : info.frame_count / info.array_size * (a + 1) ≤
      info.frame_count / info.array_size * info.array_size :=
    Nat.mul_le_mul_left _ ha
  rw [Nat.mul_add, Nat.mul_one] at hmul
  omega


/-! ## The claims -/

/-- C1: round trip of the index decomposition of `DdsDecoder_GetFrame`.  For
an `info` written by `get_dds_info` whose frame count did not wrap around 32
bits and a flat index below `frame_count`, the decomposition (given fuel for
its loop) yields an array index below `array_size`, a mip level below
`mip_levels` and a slice index below the depth of that mip level, and the
forward formula `array_index * (frame_count / array_size) + (sum of the depths
of the lower mip levels) + slice_index` gives the flat index back; an
initialized session holding this `info` passes exactly that address on to
`DdsDecoder_Dds_GetFrame`. -/
theorem get_frame_address_round_trip (header : DDS_HEADER) (header_dxt10 : DDS_HEADER_DXT10)
    (info : dds_info) (hinfo : info = get_dds_info header header_dxt10)
    (hwrap : exact_frame_count info < 2 ^ 32) (fuel index : Nat)
    (hindex : index < info.frame_count)
    (hfuel : index % (info.frame_count / info.array_size) < fuel) :
    ∃ array_index mip_level slice_index,
      get_frame_address fuel info index =
        Outcome.ok (array_index, mip_level, slice_index) ∧
      array_index < info.array_size ∧ mip_level < info.mip_levels ∧
      slice_index < depth_at info.depth mip_level ∧
      array_index * (info.frame_count / info.array_size) +
        ∑ k in Finset.range mip_level, depth_at info.depth k + slice_index = index ∧
      ∀ (This : DdsDecoder) (HeapAlloc : Bool), This.initialized = true → This.info = info →
        DdsDecoder_GetFrame fuel This index true HeapAlloc =
          DdsDecoder_Dds_GetFrame This array_index mip_level slice_index true HeapAlloc := by
  obtain ⟨hfc, hfpt, m, s, haddr, hm, hs, hrem⟩ :=
    get_frame_address_spec header header_dxt10 info hinfo hwrap fuel index hfuel
  refine ⟨index / (info.frame_count / info.array_size), m, s, haddr, ?_, hm, hs, ?_, ?_⟩
  · rw [Nat.div_lt_iff_lt_mul (by
      rw [hfpt]; exact lt_of_lt_of_le (by omega) (le_sum_depth_at _ _))]
    rw [hfpt]
    unfold exact_frame_count at hfc
    rw [hfc] at hindex
    exact hindex
  · rw [Nat.add_assoc, ← hrem]
    exact Nat.div_add_mod' index _
  · intro This HeapAlloc hinit hthis
    unfold DdsDecoder_GetFrame
    rw [hthis, haddr]
    simp [hinit]

set_option maxRecDepth 20000 in
/-- C1 at a volume of depth 8 with 4 mip levels and array size 3 (45 frames)
and the flat index 23, which is texture 1, mip level 1, slice 0. -/
theorem get_frame_address_round_trip_witness :
    exact_frame_count (get_dds_info (stream_header volume_stream)
      (stream_header_dxt10 volume_stream)) < 2 ^ 32 ∧
    23 < (get_dds_info (stream_header volume_stream)
      (stream_header_dxt10 volume_stream)).frame_count ∧
    get_frame_address 9 (get_dds_info (stream_header volume_stream)
      (stream_header_dxt10 volume_stream)) 23 = Outcome.ok (1, 1, 0) ∧
    1 * (45 / 3) + ∑ k in Finset.range 1, depth_at 8 k + 0 = 23 := by
  have h := get_frame_address_round_trip (stream_header volume_stream)
    (stream_header_dxt10 volume_stream) _ rfl (by decide) 9 23 (by decide) (by decide)
  obtain ⟨a, m, s, haddr, -, -, -, hsum, -⟩ := h
  have hval : get_frame_address 9 (get_dds_info (stream_header volume_stream)
      (stream_header_dxt10 volume_stream)) 23 = Outcome.ok (1, 1, 0) := by decide
  rw [hval] at haddr
  injection haddr with haddr
  injection haddr with ha haddr
  injection haddr with hm hs
  subst ha hm hs
  exact ⟨by decide, by decide, hval, hsum⟩

/-- C2: volume frame count.  When the effective depth is greater than 1,
`get_dds_info` sets `frame_count` to `array_size` times the sum over the mip
levels `k < mip_levels` of `max 1 (depth / 2 ^ k)`, modulo `2 ^ 32`, where
depth, mip levels and array size are the effective values (a zero field
counts as 1, the array size is 1 without extended header); levels past the
point where the depth has reached 1 add 1 each; depth 8, 4 mip levels and
array size 1 give 15. -/
theorem get_dds_info_volume_frame_count (header : DDS_HEADER)
    (header_dxt10 : DDS_HEADER_DXT10) (info : dds_info)
    (hinfo : info = get_dds_info header header_dxt10) (hvolume : 1 < info.depth) :
    info.depth = header.depth ∧
    info.mip_levels = (if header.mipMapCount = 0 then 1 else header.mipMapCount) ∧
    info.array_size =
      (if has_extended_header header = true ∧ header_dxt10.arraySize ≠ 0
       then header_dxt10.arraySize else 1) ∧
    info.frame_count =
      (info.array_size * ∑ k in Finset.range info.mip_levels, max 1 (info.depth / 2 ^ k))
        % 2 ^ 32 ∧
    (∀ n m, info.depth / 2 ^ n ≤ 1 →
      frame_count_loop (n + m) 0 info.depth =
        (frame_count_loop n 0 info.depth + m) % 2 ^ 32) ∧
    (info.depth = 8 → info.mip_levels = 4 → info.array_size = 1 → info.frame_count = 15) := by
  have hfc : info.frame_count =
      (info.array_size * ∑ k in Finset.range info.mip_levels, max 1 (info.depth / 2 ^ k))
        % 2 ^ 32 := by
    rw [hinfo]; exact get_dds_info_frame_count_sum header header_dxt10
  have hd : info.depth = if header.depth = 0 then 1 else header.depth := by
    rw [hinfo]; exact get_dds_info_depth header header_dxt10
  refine ⟨?_, ?_, ?_, hfc, ?_, ?_⟩
  · rw [hd] at hvolume ⊢
    split at hvolume
    · omega
    · rw [if_neg (by assumption)]
  · rw [hinfo]; exact get_dds_info_mip_levels header header_dxt10
  · rw [hinfo]; exact get_dds_info_array_size header header_dxt10
  · intro n m hn
    have hone : ∀ k, halve^[n + k] info.depth = 1 := by
      intro k
      rw [halve_iterate_eq_depth_at (by omega)]
      unfold depth_at
      have hle : info.depth / 2 ^ (n + k) ≤ info.depth / 2 ^ n :=
        Nat.div_le_div_left (Nat.pow_le_pow_right (by norm_num) (by omega))
          (Nat.pos_pow_of_pos _ (by norm_num))
      omega
    rw [frame_count_loop_eq, frame_count_loop_eq, Finset.sum_range_add]
    simp only [hone, Finset.sum_const, Finset.card_range, smul_eq_mul, mul_one]
    unfold UINT_RANGE
    omega
  · intro h8 h4 h1
    rw [hfc, h8, h4, h1]
    decide

/-- C2 at a header of depth 8 with 4 mip levels and no extended header. -/
theorem get_dds_info_volume_frame_count_witness :
    1 < (get_dds_info (sample_header 64 64 8 4 (MAKEFOURCC 'D' 'X' 'T' '1'))
      (sample_header_dxt10 0)).depth ∧
    (get_dds_info (sample_header 64 64 8 4 (MAKEFOURCC 'D' 'X' 'T' '1'))
      (sample_header_dxt10 0)).frame_count = 15 :=
  ⟨by decide,
    (get_dds_info_volume_frame_count (sample_header 64 64 8 4 (MAKEFOURCC 'D' 'X' 'T' '1'))
      (sample_header_dxt10 0) _ rfl (by decide)).2.2.2.2.2 (by decide) (by decide)
      (by decide)⟩

/-- C3: frame count without volume.  When the depth field of the header is 0
or 1, the effective depth is 1 and `get_dds_info` sets `frame_count` to the
32-bit product of the effective `array_size` and `mip_levels`. -/
theorem get_dds_info_flat_frame_count (header : DDS_HEADER)
    (header_dxt10 : DDS_HEADER_DXT10) (info : dds_info)
    (hinfo : info = get_dds_info header header_dxt10)
    (hdepth : header.depth = 0 ∨ header.depth = 1) :
    info.depth = 1 ∧
    info.mip_levels = (if header.mipMapCount = 0 then 1 else header.mipMapCount) ∧
    info.array_size =
      (if has_extended_header header = true ∧ header_dxt10.arraySize ≠ 0
       then header_dxt10.arraySize else 1) ∧
    info.frame_count = (info.array_size * info.mip_levels) % 2 ^ 32 := by
  have hd : info.depth = 1 := by
    rw [hinfo, get_dds_info_depth]
    rcases hdepth with h | h <;> simp [h]
  refine ⟨hd, ?_, ?_, ?_⟩
  · rw [hinfo]; exact get_dds_info_mip_levels header header_dxt10
  · rw [hinfo]; exact get_dds_info_array_size header header_dxt10
  · have h := get_dds_info_frame_count header header_dxt10
    rw [← hinfo, if_pos hd] at h
    exact h

/-- C3 at a header of depth 0 with 5 mip levels and an extended header with
array size 3: 15 frames. -/
theorem get_dds_info_flat_frame_count_witness :
    ((sample_header 64 64 0 5 (MAKEFOURCC 'D' 'X' '1' '0')).depth = 0 ∨
      (sample_header 64 64 0 5 (MAKEFOURCC 'D' 'X' '1' '0')).depth = 1) ∧
    (get_dds_info (sample_header 64 64 0 5 (MAKEFOURCC 'D' 'X' '1' '0'))
      (sample_header_dxt10 3)).frame_count = 15 :=
  ⟨Or.inl rfl,
    (get_dds_info_flat_frame_count (sample_header 64 64 0 5 (MAKEFOURCC 'D' 'X' '1' '0'))
      (sample_header_dxt10 3) _ rfl (Or.inl rfl)).2.2.2.trans (by decide)⟩

/-- C4: `DdsDecoder_GetFrame` rejects exactly the flat indices that are out
of range.  On every initialized session whose frame count did not wrap around
32 bits, with an output pointer, a successful allocation and fuel for the
loop, the call returns `E_INVALIDARG` if and only if `frame_count ≤ index`,
and stores a frame for every index below `frame_count`. -/
theorem DdsDecoder_GetFrame_index_check (This : DdsDecoder) (hreach : Reachable This)
    (hinit : This.initialized = true) (hwrap : exact_frame_count This.info < 2 ^ 32)
    (fuel index : Nat)
    (hfuel : index % (This.info.frame_count / This.info.array_size) < fuel) :
    (DdsDecoder_GetFrame fuel This index true true = Outcome.fail HRESULT.E_INVALIDARG ↔
      This.info.frame_count ≤ index) ∧
    (index < This.info.frame_count →
      ∃ frame, DdsDecoder_GetFrame fuel This index true true = Outcome.ok frame) := by
  have hinfo := Reachable_info This hreach hinit
  obtain ⟨hfc, hfpt, m, s, haddr, hm, hs, -⟩ :=
    get_frame_address_spec _ _ This.info hinfo hwrap fuel index hfuel
  have hd : 1 ≤ This.info.depth := by rw [hinfo]; exact get_dds_info_depth_pos _ _
  have hsd : s < This.info.depth := lt_of_lt_of_le hs (depth_at_le _ _ hd)
  have hpos : 0 < This.info.frame_count / This.info.array_size := by
    rw [hfpt]; exact lt_of_lt_of_le (by omega) (le_sum_depth_at _ _)
  have hdiv : This.info.array_size ≤ index / (This.info.frame_count / This.info.array_size) ↔
      This.info.frame_count ≤ index := by
    rw [Nat.le_div_iff_mul_le hpos, hfpt]
    unfold exact_frame_count at hfc
    rw [← hfc]
  have hget : DdsDecoder_GetFrame fuel This index true true =
      DdsDecoder_Dds_GetFrame This (index / (This.info.frame_count / This.info.array_size))
        m s true true := by
    unfold DdsDecoder_GetFrame
    rw [haddr]
    simp [hinit]
  rw [hget, DdsDecoder_Dds_GetFrame_eq This hinit]
  by_cases hge : This.info.frame_count ≤ index
  · have hcheck : index / (This.info.frame_count / This.info.array_size) ≥
        This.info.array_size ∨ m ≥ This.info.mip_levels ∨ s ≥ This.info.depth :=
      Or.inl (hdiv.mpr hge)
    rw [if_pos hcheck]
    exact ⟨⟨fun _ => hge, fun _ => rfl⟩, fun h => absurd h (by omega)⟩
  · have hcheck : ¬ (index / (This.info.frame_count / This.info.array_size) ≥
        This.info.array_size ∨ m ≥ This.info.mip_levels ∨ s ≥ This.info.depth) := by
      rintro (h | h | h)
      · exact hge (hdiv.mp h)
      · omega
      · omega
    rw [if_neg hcheck]
    simp [hge]

set_option maxRecDepth 20000 in
/-- C4 at the volume session (45 frames): index 45 is rejected, index 23 gives
a frame. -/
theorem DdsDecoder_GetFrame_index_check_witness :
    Reachable volume_session ∧ volume_session.initialized = true ∧
    exact_frame_count volume_session.info < 2 ^ 32 ∧
    DdsDecoder_GetFrame 1 volume_session 45 true true =
      Outcome.fail HRESULT.E_INVALIDARG ∧
    ∃ frame, DdsDecoder_GetFrame 9 volume_session 23 true true = Outcome.ok frame :=
  have hreach : Reachable volume_session :=
    Reachable.step new_session volume_stream (Reachable.create _ _ _)
  ⟨hreach, by decide, by decide,
    (DdsDecoder_GetFrame_index_check volume_session hreach (by decide) (by decide) 1 45
      (by decide)).1.mpr (by decide),
    (DdsDecoder_GetFrame_index_check volume_session hreach (by decide) (by decide) 9 23
      (by decide)).2 (by decide)⟩

/-- C5: the bounds check of `DdsDecoder_Dds_GetFrame`.  On every initialized
session, with an output pointer, the call returns `E_INVALIDARG` if and only
if `arrayIndex ≥ array_size` or `mipLevel ≥ mip_levels` or
`sliceIndex ≥ depth`; otherwise, when the allocation succeeds, it stores a
frame description. -/
theorem DdsDecoder_Dds_GetFrame_bounds_check (This : DdsDecoder)
    (hinit : This.initialized = true) (arrayIndex mipLevel sliceIndex : Nat)
    (HeapAlloc : Bool) :
    (DdsDecoder_Dds_GetFrame This arrayIndex mipLevel sliceIndex true HeapAlloc =
        Outcome.fail HRESULT.E_INVALIDARG ↔
      (arrayIndex ≥ This.info.array_size ∨ mipLevel ≥ This.info.mip_levels ∨
        sliceIndex ≥ This.info.depth)) ∧
    (¬ (arrayIndex ≥ This.info.array_size ∨ mipLevel ≥ This.info.mip_levels ∨
        sliceIndex ≥ This.info.depth) →
      ∃ frame, DdsDecoder_Dds_GetFrame This arrayIndex mipLevel sliceIndex true true =
        Outcome.ok frame) := by
  rw [DdsDecoder_Dds_GetFrame_eq This hinit, DdsDecoder_Dds_GetFrame_eq This hinit]
  by_cases hcheck : arrayIndex ≥ This.info.array_size ∨ mipLevel ≥ This.info.mip_levels ∨
      sliceIndex ≥ This.info.depth
  · rw [if_pos hcheck]
    exact ⟨⟨fun _ => hcheck, fun _ => rfl⟩, fun h => absurd hcheck h⟩
  · rw [if_neg hcheck, if_neg hcheck]
    refine ⟨?_, fun _ => ⟨_, if_neg (by decide)⟩⟩
    cases HeapAlloc <;> simp [hcheck]

set_option maxRecDepth 20000 in
/-- C5 at the volume session (array size 3, 4 mip levels, depth 8): array
index 3 is rejected, the address (1, 1, 0) gives a frame. -/
theorem DdsDecoder_Dds_GetFrame_bounds_check_witness :
    volume_session.initialized = true ∧
    DdsDecoder_Dds_GetFrame volume_session 3 0 0 true true =
      Outcome.fail HRESULT.E_INVALIDARG ∧
    ∃ frame, DdsDecoder_Dds_GetFrame volume_session 1 1 0 true true = Outcome.ok frame :=
  ⟨by decide,
    (DdsDecoder_Dds_GetFrame_bounds_check volume_session (by decide) 3 0 0 true).1.mpr
      (by decide),
    (DdsDecoder_Dds_GetFrame_bounds_check volume_session (by decide) 1 1 0 true).2
      (by decide)⟩

/-- C6: when `DdsDecoder_Initialize` succeeds.  On a session that is not
initialized and a stream that is a byte sequence, the call returns `S_OK` if
and only if the stream has at least 128 bytes, its first 4 bytes are the
little-endian magic `0x20534444`, the size field of the header is 124, and
either the header announces no extended header (not both: the pixel-format
flags contain `0x4` and the FourCC is `DX10`, `0x30315844`) or the stream has
at least 148 bytes; on success the session is initialized, its `info` is
`get_dds_info` of the header and extended header of the stream, and it holds
the stream. -/
theorem DdsDecoder_Initialize_succeeds_iff (This : DdsDecoder) (pIStream : IStream)
    (hinit : This.initialized = false) :
    ((DdsDecoder_Initialize This pIStream).1 = HRESULT.S_OK ↔
      128 ≤ pIStream.data.length ∧ read_dword pIStream.data 0 = 0x20534444 ∧
      (stream_header pIStream).size = 124 ∧
      (¬ ((stream_header pIStream).ddspf.flags &&& 0x4 ≠ 0 ∧
          (stream_header pIStream).ddspf.fourCC = 0x30315844) ∨
        148 ≤ pIStream.data.length)) ∧
    ((DdsDecoder_Initialize This pIStream).1 = HRESULT.S_OK →
      (DdsDecoder_Initialize This pIStream).2.initialized = true ∧
      (DdsDecoder_Initialize This pIStream).2.info =
        get_dds_info (stream_header pIStream) (stream_header_dxt10 pIStream) ∧
      DDS_HEADER.ofBytes (DdsDecoder_Initialize This pIStream).2.header =
        stream_header pIStream ∧
      (DdsDecoder_Initialize This pIStream).2.stream =
        some { data := pIStream.data,
               pos := if has_extended_header (stream_header pIStream) = true
                      then 148 else 128 }) := by
  have hmagic : DDS_MAGIC = 0x20534444 := rfl
  have h124 : ¬ pIStream.data.length < 128 →
      (List.take 124 (List.drop 4 pIStream.data)).length = 124 := by
    intro h; simp only [List.length_take, List.length_drop]; omega
  rw [DdsDecoder_Initialize_eq This pIStream hinit, ← has_extended_header_iff, ← hmagic]
  by_cases c1 : pIStream.data.length < 4
  · rw [if_pos c1]
    exact ⟨⟨fun h => absurd h (by simp), fun h => absurd h.1 (by omega)⟩,
      fun h => absurd h (by simp)⟩
  rw [if_neg c1]
  by_cases c2 : read_dword pIStream.data 0 ≠ DDS_MAGIC
  · rw [if_pos c2]
    exact ⟨⟨fun h => absurd h (by simp), fun h => absurd h.2.1 c2⟩,
      fun h => absurd h (by simp)⟩
  rw [if_neg c2]
  by_cases c3 : pIStream.data.length < 128
  · rw [if_pos c3]
    exact ⟨⟨fun h => absurd h (by simp), fun h => absurd h.1 (by omega)⟩,
      fun h => absurd h (by simp)⟩
  rw [if_neg c3]
  by_cases c4 : (stream_header pIStream).size ≠ 124
  · rw [if_pos c4]
    exact ⟨⟨fun h => absurd h (by simp), fun h => absurd h.2.2.1 c4⟩,
      fun h => absurd h (by simp)⟩
  rw [if_neg c4]
  have hhdr := DDS_HEADER_ofBytes_store_bytes _ This.header (h124 c3)
  by_cases c5 : has_extended_header (stream_header pIStream) = true
  · rw [if_pos c5]
    by_cases c6 : pIStream.data.length < 148
    · rw [if_pos c6]
      refine ⟨⟨fun h => absurd h (by simp), fun h => ?_⟩, fun h => absurd h (by simp)⟩
      rcases h.2.2.2 with h' | h'
      · exact absurd c5 h'
      · omega
    · rw [if_neg c6]
      refine ⟨⟨fun _ => ⟨by omega, not_not.mp c2, not_not.mp c4, Or.inr (by omega)⟩,
        fun _ => rfl⟩, fun _ => ⟨rfl, rfl, hhdr, ?_⟩⟩
      simp only [c5, if_true]
  · rw [if_neg c5]
    refine ⟨⟨fun _ => ⟨by omega, not_not.mp c2, not_not.mp c4, Or.inl c5⟩,
      fun _ => rfl⟩, fun _ => ⟨rfl, ?_, hhdr, ?_⟩⟩
    · exact get_dds_info_without_dxt10 _ _ _ c5
    · simp only [c5]
      rfl

set_option maxRecDepth 20000 in
/-- C6 at the new session and the volume file of 148 bytes. -/
theorem DdsDecoder_Initialize_succeeds_iff_witness :
    new_session.initialized = false ∧
    (DdsDecoder_Initialize new_session volume_stream).1 = HRESULT.S_OK ∧
    (DdsDecoder_Initialize new_session volume_stream).2.initialized = true :=
  have hok : (DdsDecoder_Initialize new_session volume_stream).1 = HRESULT.S_OK :=
    (DdsDecoder_Initialize_succeeds_iff new_session volume_stream rfl).1.mpr
      ⟨by decide, by decide, by decide, Or.inr (by decide)⟩
  ⟨rfl, hok, ((DdsDecoder_Initialize_succeeds_iff new_session volume_stream rfl).2 hok).1⟩

/-- C7: `BadHeader`.  On a session that is not initialized the call returns
`WINCODEC_ERR_BADHEADER` if and only if the stream starts with the magic
`0x20534444`, holds 124 more bytes and the size field of the header is not
124, whatever else the header holds; with the magic and fewer than 124 more
bytes it returns `WINCODEC_ERR_STREAMREAD`. -/
theorem DdsDecoder_Initialize_bad_header_iff (This : DdsDecoder) (pIStream : IStream)
    (hinit : This.initialized = false) :
    ((DdsDecoder_Initialize This pIStream).1 = HRESULT.WINCODEC_ERR_BADHEADER ↔
      4 + 124 ≤ pIStream.data.length ∧ read_dword pIStream.data 0 = 0x20534444 ∧
      (stream_header pIStream).size ≠ 124) ∧
    (4 ≤ pIStream.data.length → read_dword pIStream.data 0 = 0x20534444 →
      pIStream.data.length < 4 + 124 →
      (DdsDecoder_Initialize This pIStream).1 = HRESULT.WINCODEC_ERR_STREAMREAD) := by
  have hmagic : DDS_MAGIC = 0x20534444 := rfl
  rw [DdsDecoder_Initialize_eq This pIStream hinit, ← hmagic]
  split_ifs with c1 c2 c3 c4 c5 c6
  · exact ⟨⟨fun h => absurd h (by simp), fun h => absurd h.1 (by omega)⟩,
      fun h => absurd h (by omega)⟩
  · exact ⟨⟨fun h => absurd h (by simp), fun h => absurd h.2.1 c2⟩,
      fun _ h => absurd h c2⟩
  · exact ⟨⟨fun h => absurd h (by simp), fun h => absurd h.1 (by omega)⟩,
      fun _ _ _ => rfl⟩
  · exact ⟨⟨fun _ => ⟨by omega, not_not.mp c2, c4⟩, fun _ => rfl⟩,
      fun _ _ h => absurd h (by omega)⟩
  · exact ⟨⟨fun h => absurd h (by simp), fun h => absurd (not_not.mp c4) h.2.2⟩,
      fun _ _ h => absurd h (by omega)⟩
  · exact ⟨⟨fun h => absurd h (by simp), fun h => absurd (not_not.mp c4) h.2.2⟩,
      fun _ _ h => absurd h (by omega)⟩
  · exact ⟨⟨fun h => absurd h (by simp), fun h => absurd (not_not.mp c4) h.2.2⟩,
      fun _ _ h => absurd h (by omega)⟩

set_option maxRecDepth 20000 in
/-- C7 at the new session and a file of 128 bytes whose size field is 100 and
whose FourCC is `DX10`. -/
theorem DdsDecoder_Initialize_bad_header_iff_witness :
    new_session.initialized = false ∧
    has_extended_header (stream_header bad_size_stream) = true ∧
    bad_size_stream.data.length = 128 ∧
    (DdsDecoder_Initialize new_session bad_size_stream).1 =
      HRESULT.WINCODEC_ERR_BADHEADER :=
  ⟨rfl, by decide, by decide,
    (DdsDecoder_Initialize_bad_header_iff new_session bad_size_stream rfl).1.mpr
      ⟨by decide, by decide, by decide⟩⟩

/-- C8: the magic check.  On a session that is not initialized the call
returns `WINCODEC_ERR_STREAMREAD` when the stream has fewer than 4 bytes, and
returns `WINCODEC_ERR_UNKNOWNIMAGEFORMAT` if and only if the stream has at
least 4 bytes and its first 4 bytes, read as a little-endian 32-bit value,
differ from `0x20534444` (the characters `DDS ` and a blank), whatever
follows. -/
theorem DdsDecoder_Initialize_magic_check (This : DdsDecoder) (pIStream : IStream)
    (hinit : This.initialized = false) :
    (pIStream.data.length < 4 →
      (DdsDecoder_Initialize This pIStream).1 = HRESULT.WINCODEC_ERR_STREAMREAD) ∧
    ((DdsDecoder_Initialize This pIStream).1 = HRESULT.WINCODEC_ERR_UNKNOWNIMAGEFORMAT ↔
      4 ≤ pIStream.data.length ∧ read_dword pIStream.data 0 ≠ 0x20534444) ∧
    MAKEFOURCC 'D' 'D' 'S' ' ' = 0x20534444 := by
  have hmagic : DDS_MAGIC = 0x20534444 := rfl
  refine ⟨?_, ?_, by decide⟩
  · intro h
    rw [DdsDecoder_Initialize_eq This pIStream hinit, if_pos h]
  · rw [DdsDecoder_Initialize_eq This pIStream hinit, ← hmagic]
    split_ifs with c1 c2 c3 c4 c5 c6
    · exact ⟨fun h => absurd h (by simp), fun h => absurd h.1 (by omega)⟩
    · exact ⟨fun _ => ⟨by omega, c2⟩, fun _ => rfl⟩
    all_goals exact ⟨fun h => absurd h (by simp), fun h => absurd h.2 c2⟩

set_option maxRecDepth 20000 in
/-- C8 at the new session and a file of 128 bytes that starts with `RIFF`. -/
theorem DdsDecoder_Initialize_magic_check_witness :
    new_session.initialized = false ∧
    (DdsDecoder_Initialize new_session { data := [0x44, 0x44, 0x53], pos := 0 }).1 =
      HRESULT.WINCODEC_ERR_STREAMREAD ∧
    (DdsDecoder_Initialize new_session riff_stream).1 =
      HRESULT.WINCODEC_ERR_UNKNOWNIMAGEFORMAT :=
  ⟨rfl,
    (DdsDecoder_Initialize_magic_check new_session { data := [0x44, 0x44, 0x53], pos := 0 }
      rfl).1 (by decide),
    (DdsDecoder_Initialize_magic_check new_session riff_stream rfl).2.1.mpr
      ⟨by decide, by decide⟩⟩

/-- C9: a short extended header.  On a session that is not initialized, for a
stream with the magic and a full header whose size field is 124: when the
pixel-format flags contain the FourCC bit `0x4`, the FourCC is `DX10` and
fewer than 148 bytes are there, the call returns `WINCODEC_ERR_STREAMREAD` and
the session stays uninitialized; when the header announces no extended header,
a stream of exactly 128 bytes is initialized. -/
theorem DdsDecoder_Initialize_short_dxt10 (This : DdsDecoder) (pIStream : IStream)
    (hinit : This.initialized = false)
    (hmagic : read_dword pIStream.data 0 = 0x20534444)
    (hlen : 128 ≤ pIStream.data.length) (hsize : (stream_header pIStream).size = 124) :
    ((stream_header pIStream).ddspf.flags &&& 0x4 ≠ 0 →
      (stream_header pIStream).ddspf.fourCC = 0x30315844 →
      pIStream.data.length < 148 →
      (DdsDecoder_Initialize This pIStream).1 = HRESULT.WINCODEC_ERR_STREAMREAD ∧
      (DdsDecoder_Initialize This pIStream).2.initialized = false) ∧
    (¬ ((stream_header pIStream).ddspf.flags &&& 0x4 ≠ 0 ∧
        (stream_header pIStream).ddspf.fourCC = 0x30315844) →
      pIStream.data.length = 128 →
      (DdsDecoder_Initialize This pIStream).1 = HRESULT.S_OK ∧
      (DdsDecoder_Initialize This pIStream).2.initialized = true) := by
  have hm : ¬ read_dword pIStream.data 0 ≠ DDS_MAGIC := not_not.mpr hmagic
  rw [DdsDecoder_Initialize_eq This pIStream hinit, ← has_extended_header_iff,
    if_neg (by omega), if_neg hm, if_neg (by omega), if_neg (not_not.mpr hsize)]
  constructor
  · intro hflags hfourcc hshort
    rw [if_pos ((has_extended_header_iff _).mpr ⟨hflags, hfourcc⟩), if_pos hshort]
    exact ⟨rfl, hinit⟩
  · intro hnone _
    rw [if_neg hnone]
    exact ⟨rfl, rfl⟩

set_option maxRecDepth 20000 in
/-- C9 at the new session: the volume file cut after 140 bytes is rejected,
the DXT5 file of 128 bytes is initialized. -/
theorem DdsDecoder_Initialize_short_dxt10_witness :
    new_session.initialized = false ∧ short_dxt10_stream.data.length = 140 ∧
    (DdsDecoder_Initialize new_session short_dxt10_stream).1 =
      HRESULT.WINCODEC_ERR_STREAMREAD ∧
    (DdsDecoder_Initialize new_session short_dxt10_stream).2.initialized = false ∧
    dxt5_stream.data.length = 128 ∧
    (DdsDecoder_Initialize new_session dxt5_stream).1 = HRESULT.S_OK :=
  have hshort := (DdsDecoder_Initialize_short_dxt10 new_session short_dxt10_stream rfl
    (by decide) (by decide) (by decide)).1 (by decide) (by decide) (by decide)
  have hplain := (DdsDecoder_Initialize_short_dxt10 new_session dxt5_stream rfl
    (by decide) (by decide) (by decide)).2 (by decide) (by decide)
  ⟨rfl, by decide, hshort.1, hshort.2, by decide, hplain.1⟩

/-- C10: the queries need an initialized session.  On a session on which no
call of `DdsDecoder_Initialize` has succeeded (a new one, or one after any
number of failed calls), `DdsDecoder_GetFrameCount`,
`DdsDecoder_Dds_GetParameters`, `DdsDecoder_GetFrame` and
`DdsDecoder_Dds_GetFrame`, each with an output pointer, return
`WINCODEC_ERR_WRONGSTATE` for every argument; and a call of
`DdsDecoder_Initialize` that fails leaves the flag of any session as it
was. -/
theorem queries_need_initialized_session (This : DdsDecoder) (hnever : NeverInitialized This) :
    This.initialized = false ∧
    DdsDecoder_GetFrameCount This true = Outcome.fail HRESULT.WINCODEC_ERR_WRONGSTATE ∧
    DdsDecoder_Dds_GetParameters This true =
      Outcome.fail HRESULT.WINCODEC_ERR_WRONGSTATE ∧
    (∀ fuel index HeapAlloc, DdsDecoder_GetFrame fuel This index true HeapAlloc =
      Outcome.fail HRESULT.WINCODEC_ERR_WRONGSTATE) ∧
    (∀ arrayIndex mipLevel sliceIndex HeapAlloc,
      DdsDecoder_Dds_GetFrame This arrayIndex mipLevel sliceIndex true HeapAlloc =
        Outcome.fail HRESULT.WINCODEC_ERR_WRONGSTATE) ∧
    (∀ (That : DdsDecoder) (pIStream : IStream),
      FAILED (DdsDecoder_Initialize That pIStream).1 = true →
      (DdsDecoder_Initialize That pIStream).2.initialized = That.initialized) := by
  have hflag := NeverInitialized_flag This hnever
  refine ⟨hflag, ?_, ?_, ?_, ?_, ?_⟩
  · simp [DdsDecoder_GetFrameCount, hflag]
  · simp [DdsDecoder_Dds_GetParameters, hflag]
  · intro fuel index HeapAlloc
    simp [DdsDecoder_GetFrame, hflag]
  · intro arrayIndex mipLevel sliceIndex HeapAlloc
    simp [DdsDecoder_Dds_GetFrame, hflag]
  · exact fun That pIStream hfail => DdsDecoder_Initialize_failed_flag That pIStream hfail

set_option maxRecDepth 20000 in
/-- C10 at a new session after two failed calls (a bad header, then a short
extended header). -/
theorem queries_need_initialized_session_witness :
    NeverInitialized failed_session ∧
    DdsDecoder_GetFrameCount failed_session true =
      Outcome.fail HRESULT.WINCODEC_ERR_WRONGSTATE ∧
    DdsDecoder_GetFrame 1 failed_session 0 true true =
      Outcome.fail HRESULT.WINCODEC_ERR_WRONGSTATE :=
  have hnever : NeverInitialized failed_session :=
    NeverInitialized.failed _ short_dxt10_stream
      (NeverInitialized.failed new_session bad_size_stream
        (NeverInitialized.create _ _ _) (by decide)) (by decide)
  ⟨hnever, (queries_need_initialized_session failed_session hnever).2.1,
    (queries_need_initialized_session failed_session hnever).2.2.2.1 1 0 true⟩

/-- C11: a second initialization is rejected and changes nothing.  After a call
of `DdsDecoder_Initialize` that returned `S_OK`, every later call on the same
session, with any stream, returns `WINCODEC_ERR_WRONGSTATE` and leaves the
session as it is (its header, its `info` and every other field), also after
any number of later calls; so `DdsDecoder_Dds_GetParameters` and
`DdsDecoder_GetFrameCount` return the same values before and after. -/
theorem DdsDecoder_Initialize_again (This : DdsDecoder) (first : IStream)
    (hok : (DdsDecoder_Initialize This first).1 = HRESULT.S_OK) :
    (DdsDecoder_Initialize This first).2.initialized = true ∧
    (∀ later : IStream,
      DdsDecoder_Initialize (DdsDecoder_Initialize This first).2 later =
        (HRESULT.WINCODEC_ERR_WRONGSTATE, (DdsDecoder_Initialize This first).2)) ∧
    (∀ laters : List IStream,
      laters.foldl (fun session later => (DdsDecoder_Initialize session later).2)
        (DdsDecoder_Initialize This first).2 = (DdsDecoder_Initialize This first).2) ∧
    (∀ later : IStream,
      (DdsDecoder_Initialize (DdsDecoder_Initialize This first).2 later).2.header =
        (DdsDecoder_Initialize This first).2.header ∧
      (DdsDecoder_Initialize (DdsDecoder_Initialize This first).2 later).2.info =
        (DdsDecoder_Initialize This first).2.info ∧
      DdsDecoder_Dds_GetParameters
          (DdsDecoder_Initialize (DdsDecoder_Initialize This first).2 later).2 true =
        DdsDecoder_Dds_GetParameters (DdsDecoder_Initialize This first).2 true ∧
      DdsDecoder_GetFrameCount
          (DdsDecoder_Initialize (DdsDecoder_Initialize This first).2 later).2 true =
        DdsDecoder_GetFrameCount (DdsDecoder_Initialize This first).2 true) := by
  have hset := (DdsDecoder_Initialize_success This first hok).2.1
  have hagain := fun later : IStream =>
    DdsDecoder_Initialize_of_initialized (DdsDecoder_Initialize This first).2 later hset
  refine ⟨hset, hagain, ?_, ?_⟩
  · intro laters
    induction laters with
    | nil => rfl
    | cons later rest ih =>
      rw [List.foldl_cons, hagain later]
      exact ih
  · intro later
    rw [hagain later]
    exact ⟨rfl, rfl, rfl, rfl⟩

set_option maxRecDepth 20000 in
/-- C11 at the new session: the volume file is accepted, the DXT5 file offered
afterwards is rejected and the frame count stays 45. -/
theorem DdsDecoder_Initialize_again_witness :
    (DdsDecoder_Initialize new_session volume_stream).1 = HRESULT.S_OK ∧
    (DdsDecoder_Initialize (DdsDecoder_Initialize new_session volume_stream).2
      dxt5_stream).1 = HRESULT.WINCODEC_ERR_WRONGSTATE ∧
    DdsDecoder_GetFrameCount
      (DdsDecoder_Initialize (DdsDecoder_Initialize new_session volume_stream).2
        dxt5_stream).2 true = Outcome.ok 45 :=
  have hok : (DdsDecoder_Initialize new_session volume_stream).1 = HRESULT.S_OK := by
    decide
  have h := DdsDecoder_Initialize_again new_session volume_stream hok
  ⟨hok, congrArg Prod.fst (h.2.1 dxt5_stream),
    ((h.2.2.2 dxt5_stream).2.2.2).trans (by decide)⟩

set_option maxRecDepth 20000 in
/-- C12 fails: on the new session a call on a file with a bad header size
returns `WINCODEC_ERR_BADHEADER`, and a call on a file without the magic
returns `WINCODEC_ERR_UNKNOWNIMAGEFORMAT`; the next call on that same session,
on a valid file, returns `S_OK` in both cases. -/
theorem DdsDecoder_Initialize_retry_succeeds :
    (DdsDecoder_Initialize new_session bad_size_stream).1 =
      HRESULT.WINCODEC_ERR_BADHEADER ∧
    (DdsDecoder_Initialize (DdsDecoder_Initialize new_session bad_size_stream).2
      dxt5_stream).1 = HRESULT.S_OK ∧
    (DdsDecoder_Initialize new_session riff_stream).1 =
      HRESULT.WINCODEC_ERR_UNKNOWNIMAGEFORMAT ∧
    (DdsDecoder_Initialize (DdsDecoder_Initialize new_session riff_stream).2
      dxt5_stream).1 = HRESULT.S_OK ∧
    ¬ (∀ (This : DdsDecoder) (bad retry : IStream), This.initialized = false →
        ((DdsDecoder_Initialize This bad).1 = HRESULT.WINCODEC_ERR_BADHEADER ∨
          (DdsDecoder_Initialize This bad).1 = HRESULT.WINCODEC_ERR_UNKNOWNIMAGEFORMAT) →
        FAILED (DdsDecoder_Initialize (DdsDecoder_Initialize This bad).2 retry).1 = true) := by
  refine ⟨by decide, by decide, by decide, by decide, ?_⟩
  intro hall
  have h := hall new_session bad_size_stream dxt5_stream rfl (Or.inl (by decide))
  exact absurd h (by decide)

/-- C12 as amended: a call of `DdsDecoder_Initialize` that failed with
`WINCODEC_ERR_BADHEADER` or `WINCODEC_ERR_UNKNOWNIMAGEFORMAT` leaves the session
uninitialized, and the next call on the same session returns, for every stream,
the code that a session which is not initialized (a new one for instance)
returns for it; when that code is `S_OK` the session is initialized from the
headers of the new stream. -/
theorem DdsDecoder_Initialize_retry (This : DdsDecoder) (bad retry : IStream)
    (hinit : This.initialized = false)
    (hbad : (DdsDecoder_Initialize This bad).1 = HRESULT.WINCODEC_ERR_BADHEADER ∨
      (DdsDecoder_Initialize This bad).1 = HRESULT.WINCODEC_ERR_UNKNOWNIMAGEFORMAT) :
    (DdsDecoder_Initialize This bad).2.initialized = false ∧
    (∀ Other : DdsDecoder, Other.initialized = false →
      (DdsDecoder_Initialize (DdsDecoder_Initialize This bad).2 retry).1 =
        (DdsDecoder_Initialize Other retry).1) ∧
    ((DdsDecoder_Initialize (DdsDecoder_Initialize This bad).2 retry).1 = HRESULT.S_OK →
      (DdsDecoder_Initialize (DdsDecoder_Initialize This bad).2 retry).2.initialized = true ∧
      (DdsDecoder_Initialize (DdsDecoder_Initialize This bad).2 retry).2.info =
        get_dds_info (stream_header retry) (stream_header_dxt10 retry)) := by
  have hfail : FAILED (DdsDecoder_Initialize This bad).1 = true := by
    rcases hbad with h | h <;> rw [h] <;> rfl
  have hflag : (DdsDecoder_Initialize This bad).2.initialized = false := by
    rw [DdsDecoder_Initialize_failed_flag This bad hfail]; exact hinit
  refine ⟨hflag, fun Other hother => DdsDecoder_Initialize_hr_eq _ _ retry hflag hother, ?_⟩
  intro hok
  have h := DdsDecoder_Initialize_success _ retry hok
  exact ⟨h.2.1, h.2.2.1⟩

set_option maxRecDepth 20000 in
/-- C12 as amended, at the new session: after the file with a bad header size
the DXT5 file is accepted. -/
theorem DdsDecoder_Initialize_retry_witness :
    new_session.initialized = false ∧
    (DdsDecoder_Initialize new_session bad_size_stream).1 =
      HRESULT.WINCODEC_ERR_BADHEADER ∧
    (DdsDecoder_Initialize (DdsDecoder_Initialize new_session bad_size_stream).2
      dxt5_stream).1 = HRESULT.S_OK ∧
    (DdsDecoder_Initialize (DdsDecoder_Initialize new_session bad_size_stream).2
      dxt5_stream).2.initialized = true :=
  have hbad : (DdsDecoder_Initialize new_session bad_size_stream).1 =
      HRESULT.WINCODEC_ERR_BADHEADER := by decide
  have h := DdsDecoder_Initialize_retry new_session bad_size_stream dxt5_stream rfl
    (Or.inl hbad)
  have hok : (DdsDecoder_Initialize (DdsDecoder_Initialize new_session bad_size_stream).2
      dxt5_stream).1 = HRESULT.S_OK :=
    (h.2.1 new_session rfl).trans (by decide)
  ⟨rfl, hbad, hok, (h.2.2 hok).1⟩

/-- C13: the legacy FourCC.  For every header without extended header,
`get_dds_info` sets `format` to `get_format_from_fourcc` and `alpha_mode` to
`get_alpha_mode_from_fourcc` of the FourCC, where for every code: `DXT1` gives
BC1_UNORM (71); `DXT2` and `DXT3` give BC2_UNORM (74); `DXT4` and `DXT5` give
BC3_UNORM (77); `DX10` gives UNKNOWN (0); every other code gives itself; the
alpha mode is premultiplied (2) for `DXT1`, `DXT2`, `DXT4`, straight (1) for
`DXT3`, `DXT5` and unknown (0) for every other code.  Hence `DXT1` without the
cube and volume bits of `caps2` gives BC1, premultiplied, 2D texture. -/
theorem get_dds_info_legacy_fourcc (header : DDS_HEADER) (header_dxt10 : DDS_HEADER_DXT10)
    (hlegacy : has_extended_header header = false) :
    (get_dds_info header header_dxt10).format =
      get_format_from_fourcc header.ddspf.fourCC ∧
    (get_dds_info header header_dxt10).alpha_mode =
      get_alpha_mode_from_fourcc header.ddspf.fourCC ∧
    (∀ fourcc : Nat, get_format_from_fourcc fourcc =
      if fourcc = MAKEFOURCC 'D' 'X' 'T' '1' then 71
      else if fourcc = MAKEFOURCC 'D' 'X' 'T' '2' ∨ fourcc = MAKEFOURCC 'D' 'X' 'T' '3'
        then 74
      else if fourcc = MAKEFOURCC 'D' 'X' 'T' '4' ∨ fourcc = MAKEFOURCC 'D' 'X' 'T' '5'
        then 77
      else if fourcc = MAKEFOURCC 'D' 'X' '1' '0' then 0
      else fourcc) ∧
    (∀ fourcc : Nat, get_alpha_mode_from_fourcc fourcc =
      if fourcc = MAKEFOURCC 'D' 'X' 'T' '1' ∨ fourcc = MAKEFOURCC 'D' 'X' 'T' '2' ∨
          fourcc = MAKEFOURCC 'D' 'X' 'T' '4' then 2
      else if fourcc = MAKEFOURCC 'D' 'X' 'T' '3' ∨ fourcc = MAKEFOURCC 'D' 'X' 'T' '5'
        then 1
      else 0) ∧
    (header.ddspf.fourCC = MAKEFOURCC 'D' 'X' 'T' '1' →
      header.caps2 &&& 0x00000200 = 0 → header.caps2 &&& 0x00200000 = 0 →
      (get_dds_info header header_dxt10).format = 71 ∧
      (get_dds_info header header_dxt10).alpha_mode = 2 ∧
      (get_dds_info header header_dxt10).dimension = WICDdsDimension.WICDdsTexture2D) := by
  have h1 : MAKEFOURCC 'D' 'X' 'T' '1' = 0x31545844 := by decide
  have h2 : MAKEFOURCC 'D' 'X' 'T' '2' = 0x32545844 := by decide
  have h3 : MAKEFOURCC 'D' 'X' 'T' '3' = 0x33545844 := by decide
  have h4 : MAKEFOURCC 'D' 'X' 'T' '4' = 0x34545844 := by decide
  have h5 : MAKEFOURCC 'D' 'X' 'T' '5' = 0x35545844 := by decide
  have hformat : (get_dds_info header header_dxt10).format =
      get_format_from_fourcc header.ddspf.fourCC := by
    unfold get_dds_info; simp [hlegacy]
  have halpha : (get_dds_info header header_dxt10).alpha_mode =
      get_alpha_mode_from_fourcc header.ddspf.fourCC := by
    unfold get_dds_info; simp [hlegacy]
  have hdim : (get_dds_info header header_dxt10).dimension = get_dimension header none := by
    unfold get_dds_info; simp [hlegacy]
  refine ⟨hformat, halpha, ?_, ?_, ?_⟩
  · intro fourcc
    unfold get_format_from_fourcc DXGI_FORMAT_BC1_UNORM DXGI_FORMAT_BC2_UNORM
      DXGI_FORMAT_BC3_UNORM DXGI_FORMAT_UNKNOWN
    rw [h1, h2, h3, h4, h5, MAKEFOURCC_DX10]
    split_ifs <;> first | rfl | omega
  · intro fourcc
    unfold get_alpha_mode_from_fourcc WICDdsAlphaModePremultiplied WICDdsAlphaModeStraight
      WICDdsAlphaModeUnknown
    rw [h1, h2, h3, h4, h5]
    split_ifs <;> first | rfl | omega
  · intro hfourcc hcube hvolume
    rw [hformat, halpha, hdim, hfourcc]
    refine ⟨by decide, by decide, ?_⟩
    unfold get_dimension DDSCAPS2_CUBEMAP DDSCAPS2_VOLUME
    simp [hcube, hvolume]

/-- C13 at a header with the FourCC `DXT1` and `caps2` zero. -/
theorem get_dds_info_legacy_fourcc_witness :
    has_extended_header (sample_header 16 16 0 0 (MAKEFOURCC 'D' 'X' 'T' '1')) = false ∧
    (get_dds_info (sample_header 16 16 0 0 (MAKEFOURCC 'D' 'X' 'T' '1'))
      (sample_header_dxt10 0)).format = 71 ∧
    (get_dds_info (sample_header 16 16 0 0 (MAKEFOURCC 'D' 'X' 'T' '1'))
      (sample_header_dxt10 0)).alpha_mode = 2 ∧
    (get_dds_info (sample_header 16 16 0 0 (MAKEFOURCC 'D' 'X' 'T' '1'))
      (sample_header_dxt10 0)).dimension = WICDdsDimension.WICDdsTexture2D :=
  ⟨by decide,
    (get_dds_info_legacy_fourcc (sample_header 16 16 0 0 (MAKEFOURCC 'D' 'X' 'T' '1'))
      (sample_header_dxt10 0) (by decide)).2.2.2.2 rfl (by decide) (by decide)⟩

set_option maxRecDepth 20000 in
/-- C14, the code at the failing input: for a file with an extended header
whose second misc flags are 8, initialization succeeds and
`DdsDecoder_Dds_GetParameters` stores the alpha mode 8, which is none of
unknown (0), straight (1), premultiplied (2). -/
theorem get_dds_info_alpha_mode_eight :
    (DdsDecoder_Initialize new_session alpha_stream).1 = HRESULT.S_OK ∧
    has_extended_header (stream_header alpha_stream) = true ∧
    (stream_header_dxt10 alpha_stream).miscFlags2 = 8 ∧
    (get_dds_info (stream_header alpha_stream)
      (stream_header_dxt10 alpha_stream)).alpha_mode = 8 ∧
    (∃ parameters,
      DdsDecoder_Dds_GetParameters (DdsDecoder_Initialize new_session alpha_stream).2 true =
        Outcome.ok parameters ∧
      parameters.AlphaMode = 8 ∧
      parameters.AlphaMode ≠ WICDdsAlphaModeUnknown ∧
      parameters.AlphaMode ≠ WICDdsAlphaModeStraight ∧
      parameters.AlphaMode ≠ WICDdsAlphaModePremultiplied) := by
  refine ⟨by decide, by decide, by decide, by decide, ?_⟩
  exact ⟨alpha_parameters, by decide, by decide, by decide, by decide, by decide⟩

/-- C15 fails: with both the cube bit and the volume bit of `caps2` set and no
extended header, `get_dimension` returns cube texture, not 3D texture. -/
theorem get_dimension_cube_before_volume :
    has_extended_header (caps2_header 0x00200200 0) = false ∧
    (caps2_header 0x00200200 0).caps2 &&& DDSCAPS2_VOLUME ≠ 0 ∧
    get_dimension (caps2_header 0x00200200 0) none = WICDdsDimension.WICDdsTextureCube ∧
    get_dimension (caps2_header 0x00200200 0) none ≠ WICDdsDimension.WICDdsTexture3D ∧
    (get_dds_info (caps2_header 0x00200200 0) (dxt10_header 0 0 0)).dimension ≠
      WICDdsDimension.WICDdsTexture3D := by
  decide

/-- C15 as amended: without extended header `get_dimension` returns cube
texture whenever the cube bit (`0x00000200`) of `caps2` is set, whether the
volume bit is set or not; 3D texture when the volume bit (`0x00200000`) is set
and the cube bit is not; 2D texture when neither bit is set; and this is the
dimension that `get_dds_info` stores for a header without extended header. -/
theorem get_dimension_legacy (header : DDS_HEADER) :
    (header.caps2 &&& 0x00000200 ≠ 0 →
      get_dimension header none = WICDdsDimension.WICDdsTextureCube) ∧
    (header.caps2 &&& 0x00000200 = 0 → header.caps2 &&& 0x00200000 ≠ 0 →
      get_dimension header none = WICDdsDimension.WICDdsTexture3D) ∧
    (header.caps2 &&& 0x00000200 = 0 → header.caps2 &&& 0x00200000 = 0 →
      get_dimension header none = WICDdsDimension.WICDdsTexture2D) ∧
    (∀ header_dxt10 : DDS_HEADER_DXT10, has_extended_header header = false →
      (get_dds_info header header_dxt10).dimension = get_dimension header none) := by
  refine ⟨?_, ?_, ?_, ?_⟩
  · intro hcube
    unfold get_dimension DDSCAPS2_CUBEMAP
    simp [hcube]
  · intro hcube hvolume
    unfold get_dimension DDSCAPS2_CUBEMAP DDSCAPS2_VOLUME
    simp [hcube, hvolume]
  · intro hcube hvolume
    unfold get_dimension DDSCAPS2_CUBEMAP DDSCAPS2_VOLUME
    simp [hcube, hvolume]
  · intro header_dxt10 hlegacy
    unfold get_dds_info
    simp [hlegacy]

/-- C15 as amended, at `caps2` with both bits, with the volume bit only and
with no bit. -/
theorem get_dimension_legacy_witness :
    get_dimension (caps2_header 0x00200200 0) none = WICDdsDimension.WICDdsTextureCube ∧
    get_dimension (caps2_header 0x00200000 0) none = WICDdsDimension.WICDdsTexture3D ∧
    get_dimension (caps2_header 0 0) none = WICDdsDimension.WICDdsTexture2D :=
  ⟨(get_dimension_legacy (caps2_header 0x00200200 0)).1 (by decide),
    (get_dimension_legacy (caps2_header 0x00200000 0)).2.1 (by decide) (by decide),
    (get_dimension_legacy (caps2_header 0 0)).2.2.1 (by decide) (by decide)⟩

/-- C16 fails: for an extended header without the cube bit, the resource
dimension 1 gives 2D texture (not 1D), 2 gives 1D texture (not 2D) and 3 gives
2D texture (not 3D). -/
theorem get_dimension_dxt10_values :
    get_dimension (caps2_header 0 0) (some (dxt10_header 1 0 0)) =
      WICDdsDimension.WICDdsTexture2D ∧
    get_dimension (caps2_header 0 0) (some (dxt10_header 1 0 0)) ≠
      WICDdsDimension.WICDdsTexture1D ∧
    get_dimension (caps2_header 0 0) (some (dxt10_header 2 0 0)) ≠
      WICDdsDimension.WICDdsTexture2D ∧
    get_dimension (caps2_header 0 0) (some (dxt10_header 3 0 0)) ≠
      WICDdsDimension.WICDdsTexture3D := by
  decide

/-- C16 as amended: for every extended header `get_dimension` returns cube
texture whenever `miscFlag` has the cube bit (`0x4`), whatever the resource
dimension; otherwise 1D, 2D, 3D texture for the resource dimensions 2, 3, 4
(`DDS_DIMENSION_TEXTURE1D`, `2D`, `3D`) and 2D texture for every other one;
the header is not read; and this is the dimension that `get_dds_info` stores
for a header with extended header. -/
theorem get_dimension_dxt10 (header : DDS_HEADER) (header_dxt10 : DDS_HEADER_DXT10) :
    get_dimension header (some header_dxt10) =
      (if header_dxt10.miscFlag &&& 0x4 ≠ 0 then WICDdsDimension.WICDdsTextureCube
       else if header_dxt10.resourceDimension = 2 then WICDdsDimension.WICDdsTexture1D
       else if header_dxt10.resourceDimension = 3 then WICDdsDimension.WICDdsTexture2D
       else if header_dxt10.resourceDimension = 4 then WICDdsDimension.WICDdsTexture3D
       else WICDdsDimension.WICDdsTexture2D) ∧
    (∀ other : DDS_HEADER,
      get_dimension other (some header_dxt10) = get_dimension header (some header_dxt10)) ∧
    (has_extended_header header = true →
      (get_dds_info header header_dxt10).dimension =
        get_dimension header (some header_dxt10)) := by
  refine ⟨?_, fun _ => rfl, ?_⟩
  · unfold get_dimension DDS_RESOURCE_MISC_TEXTURECUBE DDS_DIMENSION_TEXTURE1D
      DDS_DIMENSION_TEXTURE2D DDS_DIMENSION_TEXTURE3D
    simp
  · intro hext
    unfold get_dds_info
    simp [hext]

/-- C16 as amended, at the resource dimensions 2, 3, 4 and 7 without the cube
bit and at the resource dimension 4 with it. -/
theorem get_dimension_dxt10_witness :
    get_dimension (caps2_header 0 0) (some (dxt10_header 2 0 0)) =
      WICDdsDimension.WICDdsTexture1D ∧
    get_dimension (caps2_header 0 0) (some (dxt10_header 3 0 0)) =
      WICDdsDimension.WICDdsTexture2D ∧
    get_dimension (caps2_header 0 0) (some (dxt10_header 4 0 0)) =
      WICDdsDimension.WICDdsTexture3D ∧
    get_dimension (caps2_header 0 0) (some (dxt10_header 7 0 0)) =
      WICDdsDimension.WICDdsTexture2D ∧
    get_dimension (caps2_header 0 0) (some (dxt10_header 4 4 0)) =
      WICDdsDimension.WICDdsTextureCube :=
  ⟨(get_dimension_dxt10 (caps2_header 0 0) (dxt10_header 2 0 0)).1.trans (by decide),
    (get_dimension_dxt10 (caps2_header 0 0) (dxt10_header 3 0 0)).1.trans (by decide),
    (get_dimension_dxt10 (caps2_header 0 0) (dxt10_header 4 0 0)).1.trans (by decide),
    (get_dimension_dxt10 (caps2_header 0 0) (dxt10_header 7 0 0)).1.trans (by decide),
    (get_dimension_dxt10 (caps2_header 0 0) (dxt10_header 4 4 0)).1.trans (by decide)⟩

/-- C17: the parameters follow the byte layout.  After a call of
`DdsDecoder_Initialize` that returned `S_OK` on a byte stream,
`DdsDecoder_Dds_GetParameters` stores `Width` = the little-endian `DWORD` at
stream offset 16, `Height` = the one at offset 12, `Depth` = the one at offset
24 or 1 if that is 0, `MipLevels` = the one at offset 28 or 1 if that is 0,
and `ArraySize` = 1 without extended header, otherwise the `DWORD` at offset
140 or 1 if that is 0 (the extended header is announced by the `DWORD`s at
offsets 80 and 84); so `Depth`, `MipLevels` and `ArraySize` are at least 1,
and `DdsDecoder_GetFrameCount` stores the frame count computed from these
values. -/
theorem DdsDecoder_Dds_GetParameters_layout (This : DdsDecoder) (pIStream : IStream)
    (hok : (DdsDecoder_Initialize This pIStream).1 = HRESULT.S_OK) :
    ∃ parameters : WICDdsParameters,
      DdsDecoder_Dds_GetParameters (DdsDecoder_Initialize This pIStream).2 true =
        Outcome.ok parameters ∧
      parameters.Width = read_dword pIStream.data 16 ∧
      parameters.Height = read_dword pIStream.data 12 ∧
      parameters.Depth =
        (if read_dword pIStream.data 24 = 0 then 1 else read_dword pIStream.data 24) ∧
      parameters.MipLevels =
        (if read_dword pIStream.data 28 = 0 then 1 else read_dword pIStream.data 28) ∧
      parameters.ArraySize =
        (if has_extended_header (stream_header pIStream) = true then
          (if read_dword pIStream.data 140 = 0 then 1 else read_dword pIStream.data 140)
         else 1) ∧
      (has_extended_header (stream_header pIStream) = true ↔
        read_dword pIStream.data 80 &&& 0x4 ≠ 0 ∧
        read_dword pIStream.data 84 = 0x30315844) ∧
      1 ≤ parameters.Depth ∧ 1 ≤ parameters.MipLevels ∧ 1 ≤ parameters.ArraySize ∧
      DdsDecoder_GetFrameCount (DdsDecoder_Initialize This pIStream).2 true =
        Outcome.ok ((parameters.ArraySize *
          ∑ k in Finset.range parameters.MipLevels, max 1 (parameters.Depth / 2 ^ k))
            % 2 ^ 32) := by
  obtain ⟨-, hset, hinfo, -, -⟩ := DdsDecoder_Initialize_success This pIStream hok
  obtain ⟨hheight, hwidth, hdepth, hmips, hflags, hfourcc, -⟩ :=
    stream_header_offsets pIStream
  have harray := stream_header_dxt10_arraySize pIStream
  refine ⟨_, by simp only [DdsDecoder_Dds_GetParameters, hset]; rfl, ?_⟩
  simp only [DdsDecoder_GetFrameCount, hset, hinfo]
  refine ⟨hwidth, hheight, ?_, ?_, ?_, ?_, ?_, ?_, ?_, ?_⟩
  · rw [get_dds_info_depth, hdepth]
  · rw [get_dds_info_mip_levels, hmips]
  · rw [get_dds_info_array_size, harray]
    by_cases hext : has_extended_header (stream_header pIStream) = true <;>
      by_cases hzero : read_dword pIStream.data 140 = 0 <;> simp [hext, hzero]
  · rw [has_extended_header_iff, hflags, hfourcc]
  · exact get_dds_info_depth_pos _ _
  · exact get_dds_info_mip_levels_pos _ _
  · exact get_dds_info_array_size_pos _ _
  · have hsum := get_dds_info_frame_count_sum (stream_header pIStream)
      (stream_header_dxt10 pIStream)
    simp only [Bool.not_true, Bool.false_eq_true, if_false]
    rw [hsum]
    rfl

set_option maxRecDepth 20000 in
/-- C17 at the new session and the volume file (64 x 32, depth 8, 4 mip
levels, array size 3). -/
theorem DdsDecoder_Dds_GetParameters_layout_witness :
    (DdsDecoder_Initialize new_session volume_stream).1 = HRESULT.S_OK ∧
    read_dword volume_stream.data 16 = 64 ∧ read_dword volume_stream.data 12 = 32 ∧
    read_dword volume_stream.data 24 = 8 ∧ read_dword volume_stream.data 28 = 4 ∧
    read_dword volume_stream.data 140 = 3 ∧
    ∃ parameters : WICDdsParameters,
      DdsDecoder_Dds_GetParameters (DdsDecoder_Initialize new_session volume_stream).2 true =
        Outcome.ok parameters ∧
      parameters.Width = read_dword volume_stream.data 16 ∧
      parameters.Height = read_dword volume_stream.data 12 :=
  have hok : (DdsDecoder_Initialize new_session volume_stream).1 = HRESULT.S_OK := by
    decide
  ⟨hok, by decide, by decide, by decide, by decide, by decide,
    (DdsDecoder_Dds_GetParameters_layout new_session volume_stream hok).imp
      fun _ h => ⟨h.1, h.2.1, h.2.2.1⟩⟩

set_option maxRecDepth 20000 in
/-- C18 fails: a DXT5 file whose width field is 0 is accepted, and the frame
at mip level 0 has width 0, not `max 1 (0 / 2 ^ 0) = 1`. -/
theorem DdsDecoder_Dds_GetFrame_zero_width :
    (DdsDecoder_Initialize new_session zero_width_stream).1 = HRESULT.S_OK ∧
    (DdsDecoder_Initialize new_session zero_width_stream).2.info.width = 0 ∧
    DdsDecoder_Dds_GetFrame (DdsDecoder_Initialize new_session zero_width_stream).2
      0 0 0 true true = Outcome.ok (fill_frame_info 0 16 77) ∧
    (fill_frame_info 0 16 77).width = 0 ∧
    (fill_frame_info 0 16 77).width ≠
      max 1 ((DdsDecoder_Initialize new_session zero_width_stream).2.info.width / 2 ^ 0) ∧
    ¬ (1 ≤ (fill_frame_info 0 16 77).width) := by
  decide

/-- C18 as amended: on every initialized session and for every accepted
address with mip level `k`, the frame of `DdsDecoder_Dds_GetFrame` has the
width `max 1 (W / 2 ^ k)` when the base width `W` is at least 1 and the width
0 when `W` is 0, and likewise for the height; so a frame has width at least 1
when the base width is at least 1 (and height likewise); base 256 x 256 at
level 3 gives 32 x 32. -/
theorem DdsDecoder_Dds_GetFrame_mip_size (This : DdsDecoder)
    (hinit : This.initialized = true) (arrayIndex mipLevel sliceIndex : Nat)
    (hbounds : arrayIndex < This.info.array_size ∧ mipLevel < This.info.mip_levels ∧
      sliceIndex < This.info.depth) :
    ∃ frame : dds_frame_info,
      DdsDecoder_Dds_GetFrame This arrayIndex mipLevel sliceIndex true true =
        Outcome.ok frame ∧
      frame.width =
        (if This.info.width = 0 then 0 else max 1 (This.info.width / 2 ^ mipLevel)) ∧
      frame.height =
        (if This.info.height = 0 then 0 else max 1 (This.info.height / 2 ^ mipLevel)) ∧
      (1 ≤ This.info.width → 1 ≤ frame.width) ∧
      (1 ≤ This.info.height → 1 ≤ frame.height) ∧
      (This.info.width = 256 → This.info.height = 256 → mipLevel = 3 →
        frame.width = 32 ∧ frame.height = 32) := by
  have hcheck : ¬ (arrayIndex ≥ This.info.array_size ∨ mipLevel ≥ This.info.mip_levels ∨
      sliceIndex ≥ This.info.depth) := by omega
  have hw := halve_iterate_eq This.info.width mipLevel
  have hh := halve_iterate_eq This.info.height mipLevel
  refine ⟨fill_frame_info (halve^[mipLevel] This.info.width)
    (halve^[mipLevel] This.info.height) This.info.format, ?_, hw, hh, ?_, ?_, ?_⟩
  · rw [DdsDecoder_Dds_GetFrame_eq This hinit, if_neg hcheck, if_neg (by decide),
      mip_size_loop_eq]
  · intro h; show 1 ≤ halve^[mipLevel] This.info.width
    exact halve_iterate_pos h mipLevel
  · intro h; show 1 ≤ halve^[mipLevel] This.info.height
    exact halve_iterate_pos h mipLevel
  · intro h256w h256h h3
    constructor
    · show halve^[mipLevel] This.info.width = 32
      rw [h256w, h3]; decide
    · show halve^[mipLevel] This.info.height = 32
      rw [h256h, h3]; decide

set_option maxRecDepth 20000 in
/-- C18 as amended, at a 256 x 256 file with 9 mip levels and mip level 3. -/
theorem DdsDecoder_Dds_GetFrame_mip_size_witness :
    (DdsDecoder_Initialize new_session mip_stream).2.initialized = true ∧
    ∃ frame : dds_frame_info,
      DdsDecoder_Dds_GetFrame (DdsDecoder_Initialize new_session mip_stream).2 0 3 0
        true true = Outcome.ok frame ∧
      frame.width = 32 ∧ frame.height = 32 :=
  ⟨by decide,
    (DdsDecoder_Dds_GetFrame_mip_size (DdsDecoder_Initialize new_session mip_stream).2
      (by decide) 0 3 0 (by decide)).imp
      fun _ h => ⟨h.1, h.2.2.2.2.2 (by decide) (by decide) rfl⟩⟩

set_option maxRecDepth 20000 in
/-- C19 fails: a DXT5 file whose width field is `0xFFFFFFFF` is accepted, and
the frame at mip level 0 has width 4294967295 and 0 blocks in width, where the
ceiling of a quarter of the width is 1073741824. -/
theorem DdsDecoder_Dds_GetFrame_width_in_blocks_wraps :
    (DdsDecoder_Initialize new_session huge_width_stream).1 = HRESULT.S_OK ∧
    DdsDecoder_Dds_GetFrame (DdsDecoder_Initialize new_session huge_width_stream).2
      0 0 0 true true = Outcome.ok (fill_frame_info 4294967295 16 77) ∧
    (fill_frame_info 4294967295 16 77).width = 4294967295 ∧
    (fill_frame_info 4294967295 16 77).width_in_blocks = 0 ∧
    (4294967295 + 3) / 4 = 1073741824 ∧
    (fill_frame_info 4294967295 16 77).width_in_blocks ≠
      ((fill_frame_info 4294967295 16 77).width + 3) / 4 := by
  decide

/-- C19 as amended: for every frame of `DdsDecoder_Dds_GetFrame` the block
width is 4, and when the frame width `w` satisfies `w + 3 < 2 ^ 32` the width
in blocks is the ceiling of `w / 4`: it is `(w + 3) / 4`, the least number of
blocks of 4 texels that cover `w` texels. -/
theorem DdsDecoder_Dds_GetFrame_width_in_blocks (This : DdsDecoder)
    (hinit : This.initialized = true) (arrayIndex mipLevel sliceIndex : Nat)
    (hbounds : arrayIndex < This.info.array_size ∧ mipLevel < This.info.mip_levels ∧
      sliceIndex < This.info.depth) :
    ∃ frame : dds_frame_info,
      DdsDecoder_Dds_GetFrame This arrayIndex mipLevel sliceIndex true true =
        Outcome.ok frame ∧
      frame.block_width = 4 ∧
      (frame.width + 3 < 2 ^ 32 →
        frame.width_in_blocks = (frame.width + 3) / 4 ∧
        frame.width ≤ 4 * frame.width_in_blocks ∧
        ∀ n : Nat, frame.width ≤ 4 * n → frame.width_in_blocks ≤ n) := by
  have hcheck : ¬ (arrayIndex ≥ This.info.array_size ∨ mipLevel ≥ This.info.mip_levels ∨
      sliceIndex ≥ This.info.depth) := by omega
  refine ⟨fill_frame_info (mip_size_loop mipLevel This.info.width This.info.height).1
    (mip_size_loop mipLevel This.info.width This.info.height).2 This.info.format,
    ?_, rfl, ?_⟩
  · rw [DdsDecoder_Dds_GetFrame_eq This hinit, if_neg hcheck, if_neg (by decide)]
  · intro hfit
    have hblocks : (fill_frame_info
        (mip_size_loop mipLevel This.info.width This.info.height).1
        (mip_size_loop mipLevel This.info.width This.info.height).2
        This.info.format).width_in_blocks =
        ((mip_size_loop mipLevel This.info.width This.info.height).1 + 3) / 4 :=
      blocks_eq _ (by
        have : (mip_size_loop mipLevel This.info.width This.info.height).1 + 3 < 2 ^ 32 :=
          hfit
        unfold UINT_RANGE; omega)
    rw [hblocks]
    refine ⟨rfl, ?_, ?_⟩
    · show (mip_size_loop mipLevel This.info.width This.info.height).1 ≤ _
      omega
    · intro n hn
      have : (mip_size_loop mipLevel This.info.width This.info.height).1 ≤ 4 * n := hn
      omega

set_option maxRecDepth 20000 in
/-- C19 as amended, at the volume session (base width 64) and mip level 1:
width 32, 8 blocks; and at a file of width `0xFFFFFFFC`, the largest width
with `w + 3 < 2 ^ 32`: 1073741823 blocks. -/
theorem DdsDecoder_Dds_GetFrame_width_in_blocks_witness :
    volume_session.initialized = true ∧
    (∃ frame : dds_frame_info,
      DdsDecoder_Dds_GetFrame volume_session 1 1 0 true true = Outcome.ok frame ∧
      frame.block_width = 4 ∧ frame.width = 32 ∧ frame.width_in_blocks = 8) ∧
    (DdsDecoder_Initialize new_session edge_square_stream).2.initialized = true ∧
    (∃ frame : dds_frame_info,
      DdsDecoder_Dds_GetFrame (DdsDecoder_Initialize new_session edge_square_stream).2
        0 0 0 true true = Outcome.ok frame ∧
      frame.width = 4294967292 ∧ frame.width_in_blocks = 1073741823) := by
  refine ⟨by decide, ?_, by decide, ?_⟩
  · obtain ⟨frame, hframe, hblock, hfit⟩ :=
      DdsDecoder_Dds_GetFrame_width_in_blocks volume_session (by decide) 1 1 0 (by decide)
    have hvalue : DdsDecoder_Dds_GetFrame volume_session 1 1 0 true true =
        Outcome.ok (fill_frame_info 32 16 0) := by decide
    rw [hvalue] at hframe
    injection hframe with hframe
    subst hframe
    exact ⟨_, hvalue, hblock, rfl, (hfit (by decide)).1.trans (by decide)⟩
  · obtain ⟨frame, hframe, -, hfit⟩ :=
      DdsDecoder_Dds_GetFrame_width_in_blocks
        (DdsDecoder_Initialize new_session edge_square_stream).2 (by decide) 0 0 0
        (by decide)
    have hvalue : DdsDecoder_Dds_GetFrame
        (DdsDecoder_Initialize new_session edge_square_stream).2 0 0 0 true true =
        Outcome.ok (fill_frame_info 4294967292 4294967292 77) := by decide
    rw [hvalue] at hframe
    injection hframe with hframe
    subst hframe
    exact ⟨_, hvalue, rfl, (hfit (by decide)).1.trans (by decide)⟩

set_option maxRecDepth 20000 in
/-- C20, the code at the failing input: for a DXT5 file of width 16 and height
8 the frame has height 8 and block height 4 but 4 blocks in height, where the
ceiling of a quarter of the height is 2; the height in blocks is computed from
the width, so it always equals the width in blocks. -/
theorem DdsDecoder_Dds_GetFrame_height_in_blocks_from_width :
    (DdsDecoder_Initialize new_session wide_stream).1 = HRESULT.S_OK ∧
    DdsDecoder_Dds_GetFrame (DdsDecoder_Initialize new_session wide_stream).2
      0 0 0 true true = Outcome.ok (fill_frame_info 16 8 77) ∧
    (fill_frame_info 16 8 77).height = 8 ∧
    (fill_frame_info 16 8 77).block_height = 4 ∧
    (fill_frame_info 16 8 77).height_in_blocks = 4 ∧
    (8 + 3) / 4 = 2 ∧
    (∀ width height format : Nat,
      (fill_frame_info width height format).height_in_blocks =
        (fill_frame_info width height format).width_in_blocks) := by
  refine ⟨by decide, by decide, by decide, by decide, by decide, by decide, ?_⟩
  intro width height format
  rfl

/-- C21: the bytes per block.  For every format, `get_bytes_per_block` is 8
exactly for the BC1 formats (70, 71, 72), 16 exactly for the BC2 and BC3
formats (73 to 78) and 0 for every other format; a format that is not one of
these does not make `DdsDecoder_Dds_GetFrame` fail: for an accepted address
the frame is stored, with 0 bytes per block and block width and height 4. -/
theorem get_bytes_per_block_table (format : Nat) :
    (get_bytes_per_block format = 8 ↔ format = 70 ∨ format = 71 ∨ format = 72) ∧
    (get_bytes_per_block format = 16 ↔ 73 ≤ format ∧ format ≤ 78) ∧
    (get_bytes_per_block format = 0 ↔ ¬ (70 ≤ format ∧ format ≤ 78)) ∧
    (∀ (This : DdsDecoder) (arrayIndex mipLevel sliceIndex : Nat),
      This.initialized = true → This.info.format = format →
      ¬ (70 ≤ format ∧ format ≤ 78) →
      arrayIndex < This.info.array_size → mipLevel < This.info.mip_levels →
      sliceIndex < This.info.depth →
      ∃ frame : dds_frame_info,
        DdsDecoder_Dds_GetFrame This arrayIndex mipLevel sliceIndex true true =
          Outcome.ok frame ∧
        frame.format = format ∧ frame.bytes_per_block = 0 ∧
        frame.block_width = 4 ∧ frame.block_height = 4) := by
  have htable : (get_bytes_per_block format = 8 ↔ format = 70 ∨ format = 71 ∨ format = 72) ∧
      (get_bytes_per_block format = 16 ↔ 73 ≤ format ∧ format ≤ 78) ∧
      (get_bytes_per_block format = 0 ↔ ¬ (70 ≤ format ∧ format ≤ 78)) := by
    unfold get_bytes_per_block DXGI_FORMAT_BC1_UNORM DXGI_FORMAT_BC1_TYPELESS
      DXGI_FORMAT_BC1_UNORM_SRGB DXGI_FORMAT_BC2_UNORM DXGI_FORMAT_BC2_TYPELESS
      DXGI_FORMAT_BC2_UNORM_SRGB DXGI_FORMAT_BC3_UNORM DXGI_FORMAT_BC3_TYPELESS
      DXGI_FORMAT_BC3_UNORM_SRGB
    split_ifs <;> refine ⟨⟨?_, ?_⟩, ⟨?_, ?_⟩, ⟨?_, ?_⟩⟩ <;> intro h <;>
      first | omega | contradiction
  refine ⟨htable.1, htable.2.1, htable.2.2, ?_⟩
  intro This arrayIndex mipLevel sliceIndex hinit hformat hother ha hm hs
  have hcheck : ¬ (arrayIndex ≥ This.info.array_size ∨ mipLevel ≥ This.info.mip_levels ∨
      sliceIndex ≥ This.info.depth) := by omega
  refine ⟨fill_frame_info (mip_size_loop mipLevel This.info.width This.info.height).1
    (mip_size_loop mipLevel This.info.width This.info.height).2 This.info.format,
    ?_, hformat, ?_, rfl, rfl⟩
  · rw [DdsDecoder_Dds_GetFrame_eq This hinit, if_neg hcheck, if_neg (by decide)]
  · show get_bytes_per_block This.info.format = 0
    rw [hformat]
    exact htable.2.2.mpr hother

set_option maxRecDepth 20000 in
/-- C21 at the formats 71, 77 and 0, and at the volume session, whose format
is 0. -/
theorem get_bytes_per_block_table_witness :
    get_bytes_per_block 71 = 8 ∧ get_bytes_per_block 77 = 16 ∧
    get_bytes_per_block 0 = 0 ∧ volume_session.info.format = 0 ∧
    ∃ frame : dds_frame_info,
      DdsDecoder_Dds_GetFrame volume_session 0 0 0 true true = Outcome.ok frame ∧
      frame.format = 0 ∧ frame.bytes_per_block = 0 ∧
      frame.block_width = 4 ∧ frame.block_height = 4 :=
  ⟨(get_bytes_per_block_table 71).1.mpr (by decide),
    (get_bytes_per_block_table 77).2.1.mpr (by decide),
    (get_bytes_per_block_table 0).2.2.1.mpr (by decide), by decide,
    (get_bytes_per_block_table 0).2.2.2 volume_session 0 0 0 (by decide) (by decide)
      (by decide) (by decide) (by decide) (by decide)⟩

set_option maxRecDepth 20000 in
/-- C22 fails: a well-formed DXT5 file of 4294967295 x 4294967295 texels is
accepted, has one frame, and `DdsDecoder_GetFrame` at index 0 stores a frame
of that size whose block grid is 0 by 0 blocks, where the ceiling of a quarter
of the size is 1073741824. -/
theorem single_frame_block_grid_wraps :
    (DdsDecoder_Initialize new_session huge_square_stream).1 = HRESULT.S_OK ∧
    (stream_header huge_square_stream).width = 4294967295 ∧
    (stream_header huge_square_stream).height = 4294967295 ∧
    DdsDecoder_GetFrameCount (DdsDecoder_Initialize new_session huge_square_stream).2 true =
      Outcome.ok 1 ∧
    DdsDecoder_GetFrame 1 (DdsDecoder_Initialize new_session huge_square_stream).2 0
      true true = Outcome.ok (fill_frame_info 4294967295 4294967295 77) ∧
    (fill_frame_info 4294967295 4294967295 77).width_in_blocks = 0 ∧
    (fill_frame_info 4294967295 4294967295 77).height_in_blocks = 0 ∧
    (4294967295 + 3) / 4 = 1073741824 := by
  decide

/-- C22 as amended: for every `n` with `1 ≤ n` and `n + 3 < 2 ^ 32` and every
stream of at least 128 bytes with the magic, the header size 124, width and
height `n`, the FourCC `DXT5` and depth and mip count fields 0 or 1, on a
session that is not initialized: initialization returns `S_OK`, the frame
count is 1, and `DdsDecoder_GetFrame` at index 0 (with fuel for one test of
its loop) stores a frame of width `n`, height `n`, format BC3_UNORM (77), 16
bytes per block, blocks of 4 x 4, and a grid of `(n + 3) / 4` by
`(n + 3) / 4` blocks, the ceiling of `n / 4`; for `n = 16` the grid is 4 by
4. -/
theorem single_frame_texture (This : DdsDecoder) (pIStream : IStream) (n : Nat)
    (hinit : This.initialized = false) (hlen : 128 ≤ pIStream.data.length)
    (hmagic : read_dword pIStream.data 0 = 0x20534444)
    (hsize : (stream_header pIStream).size = 124)
    (hwidth : (stream_header pIStream).width = n)
    (hheight : (stream_header pIStream).height = n)
    (hfourcc : (stream_header pIStream).ddspf.fourCC = MAKEFOURCC 'D' 'X' 'T' '5')
    (hdepth : (stream_header pIStream).depth = 0 ∨ (stream_header pIStream).depth = 1)
    (hmips : (stream_header pIStream).mipMapCount = 0 ∨
      (stream_header pIStream).mipMapCount = 1)
    (hn : 1 ≤ n) (hfit : n + 3 < 2 ^ 32) :
    (DdsDecoder_Initialize This pIStream).1 = HRESULT.S_OK ∧
    DdsDecoder_GetFrameCount (DdsDecoder_Initialize This pIStream).2 true = Outcome.ok 1 ∧
    (∀ fuel : Nat, 1 ≤ fuel →
      ∃ frame : dds_frame_info,
        DdsDecoder_GetFrame fuel (DdsDecoder_Initialize This pIStream).2 0 true true =
          Outcome.ok frame ∧
        frame.width = n ∧ frame.height = n ∧ 1 ≤ frame.width ∧ frame.format = 77 ∧
        frame.bytes_per_block = 16 ∧ frame.block_width = 4 ∧ frame.block_height = 4 ∧
        frame.width_in_blocks = (n + 3) / 4 ∧ frame.height_in_blocks = (n + 3) / 4) ∧
    (n ≤ 4 * ((n + 3) / 4) ∧ ∀ blocks : Nat, n ≤ 4 * blocks → (n + 3) / 4 ≤ blocks) ∧
    (n = 16 → (n + 3) / 4 = 4) := by
  have hnone : ¬ has_extended_header (stream_header pIStream) = true := by
    rw [has_extended_header_iff, hfourcc]
    intro h
    exact absurd h.2 (by decide)
  have hm : ¬ read_dword pIStream.data 0 ≠ DDS_MAGIC := not_not.mpr hmagic
  have hok : (DdsDecoder_Initialize This pIStream).1 = HRESULT.S_OK := by
    rw [DdsDecoder_Initialize_eq This pIStream hinit, if_neg (by omega),
      if_neg hm, if_neg (by omega), if_neg (not_not.mpr hsize), if_neg hnone]
  obtain ⟨-, hset, hinfo, -, -⟩ := DdsDecoder_Initialize_success This pIStream hok
  have hvalue : (DdsDecoder_Initialize This pIStream).2.info =
      { width := n, height := n, depth := 1, mip_levels := 1, array_size := 1,
        frame_count := 1, format := 77,
        dimension := get_dimension (stream_header pIStream) none, alpha_mode := 1 } := by
    rw [hinfo]
    unfold get_dds_info
    have hformat : get_format_from_fourcc (MAKEFOURCC 'D' 'X' 'T' '5') = 77 := by decide
    have halpha : get_alpha_mode_from_fourcc (MAKEFOURCC 'D' 'X' 'T' '5') = 1 := by decide
    rcases hdepth with hd | hd <;> rcases hmips with hm | hm <;>
      simp [hnone, hwidth, hheight, hfourcc, hd, hm, hformat, halpha, UINT_RANGE]
  refine ⟨hok, ?_, ?_, ⟨by omega, fun blocks h => by omega⟩, fun h => by omega⟩
  · simp [DdsDecoder_GetFrameCount, hset, hvalue]
  · intro fuel hfuel
    obtain ⟨rest, hrest⟩ : ∃ rest, fuel = rest + 1 := ⟨fuel - 1, by omega⟩
    have haddr : get_frame_address fuel (DdsDecoder_Initialize This pIStream).2.info 0 =
        Outcome.ok (0, 0, 0) := by
      rw [hvalue, hrest]
      simp [get_frame_address, mip_walk]
    have hcheck : ¬ (0 ≥ (DdsDecoder_Initialize This pIStream).2.info.array_size ∨
        0 ≥ (DdsDecoder_Initialize This pIStream).2.info.mip_levels ∨
        0 ≥ (DdsDecoder_Initialize This pIStream).2.info.depth) := by
      rw [hvalue]; simp
    refine ⟨fill_frame_info n n 77, ?_, rfl, rfl, hn, rfl,
      show get_bytes_per_block 77 = 16 by decide, rfl, rfl, ?_, ?_⟩
    · unfold DdsDecoder_GetFrame
      rw [haddr]
      simp only [hset, Bool.not_true, Bool.false_eq_true, if_false]
      rw [DdsDecoder_Dds_GetFrame_eq _ hset, if_neg hcheck, if_neg (by decide), hvalue]
      rfl
    · exact blocks_eq n (by unfold UINT_RANGE; omega)
    · exact blocks_eq n (by unfold UINT_RANGE; omega)

set_option maxRecDepth 20000 in
/-- C22 as amended, at the new session and the 16 x 16 DXT5 file, and at the
DXT5 file of size `0xFFFFFFFC`, the largest `n` with `n + 3 < 2 ^ 32`, whose
grid is 1073741823 by 1073741823 blocks. -/
theorem single_frame_texture_witness :
    new_session.initialized = false ∧ dxt5_stream.data.length = 128 ∧
    (DdsDecoder_Initialize new_session dxt5_stream).1 = HRESULT.S_OK ∧
    DdsDecoder_GetFrameCount (DdsDecoder_Initialize new_session dxt5_stream).2 true =
      Outcome.ok 1 ∧
    (∃ frame : dds_frame_info,
      DdsDecoder_GetFrame 1 (DdsDecoder_Initialize new_session dxt5_stream).2 0 true true =
        Outcome.ok frame ∧
      frame.width = 16 ∧ frame.height = 16 ∧ frame.bytes_per_block = 16 ∧
      frame.width_in_blocks = 4 ∧ frame.height_in_blocks = 4) ∧
    (DdsDecoder_Initialize new_session edge_square_stream).1 = HRESULT.S_OK ∧
    (∃ frame : dds_frame_info,
      DdsDecoder_GetFrame 1 (DdsDecoder_Initialize new_session edge_square_stream).2 0
        true true = Outcome.ok frame ∧
      frame.width = 4294967292 ∧ frame.height = 4294967292 ∧
      frame.width_in_blocks = 1073741823 ∧ frame.height_in_blocks = 1073741823) :=
  have h := single_frame_texture new_session dxt5_stream 16 rfl (by decide) (by decide)
    (by decide) (by decide) (by decide) (by decide) (by decide) (by decide) (by decide)
    (by decide)
  have hedge := single_frame_texture new_session edge_square_stream 4294967292 rfl
    (by decide) (by decide) (by decide) (by decide) (by decide) (by decide) (by decide)
    (by decide) (by decide) (by decide)
  ⟨rfl, by decide, h.1, h.2.1,
    (h.2.2.1 1 (by decide)).imp fun _ hf =>
      ⟨hf.1, hf.2.1, hf.2.2.1, hf.2.2.2.2.2.1, hf.2.2.2.2.2.2.2.2.1,
        hf.2.2.2.2.2.2.2.2.2⟩,
    hedge.1,
    (hedge.2.2.1 1 (by decide)).imp fun _ hf =>
      ⟨hf.1, hf.2.1, hf.2.2.1, hf.2.2.2.2.2.2.2.2.1, hf.2.2.2.2.2.2.2.2.2⟩⟩

set_option maxRecDepth 20000 in
/-- C23, the code at the failing input: a file with `0x10000` mip levels and
an extended header with array size `0x10000` is accepted; the 32-bit frame
count is 0, the divisor `frame_count / array_size` is 0, and
`DdsDecoder_GetFrame` divides by zero for every index.  When the frame count
did not wrap, the divisor is at least 1. -/
theorem DdsDecoder_GetFrame_divides_by_zero :
    (DdsDecoder_Initialize new_session wrap_stream).1 = HRESULT.S_OK ∧
    (DdsDecoder_Initialize new_session wrap_stream).2.info.depth = 1 ∧
    (DdsDecoder_Initialize new_session wrap_stream).2.info.mip_levels = 65536 ∧
    (DdsDecoder_Initialize new_session wrap_stream).2.info.array_size = 65536 ∧
    (DdsDecoder_Initialize new_session wrap_stream).2.info.frame_count = 0 ∧
    (DdsDecoder_Initialize new_session wrap_stream).2.info.frame_count /
      (DdsDecoder_Initialize new_session wrap_stream).2.info.array_size = 0 ∧
    (∀ fuel index : Nat,
      DdsDecoder_GetFrame fuel (DdsDecoder_Initialize new_session wrap_stream).2 index
        true true = Outcome.div_by_zero) ∧
    (∀ (header : DDS_HEADER) (header_dxt10 : DDS_HEADER_DXT10),
      exact_frame_count (get_dds_info header header_dxt10) < 2 ^ 32 →
      1 ≤ (get_dds_info header header_dxt10).frame_count /
        (get_dds_info header header_dxt10).array_size) := by
  refine ⟨by decide, by decide, by decide, by decide, by decide, by decide, ?_, ?_⟩
  · intro fuel index
    have hset : (DdsDecoder_Initialize new_session wrap_stream).2.initialized = true := by
      decide
    have hsize : ¬ (DdsDecoder_Initialize new_session wrap_stream).2.info.array_size = 0 := by
      decide
    have hzero : (DdsDecoder_Initialize new_session wrap_stream).2.info.frame_count /
        (DdsDecoder_Initialize new_session wrap_stream).2.info.array_size = 0 := by decide
    have haddr : get_frame_address fuel
        (DdsDecoder_Initialize new_session wrap_stream).2.info index =
        Outcome.div_by_zero := by
      unfold get_frame_address
      rw [if_neg hsize]
      simp only [if_pos hzero]
    unfold DdsDecoder_GetFrame
    rw [haddr]
    simp [hset]
  · intro header header_dxt10 hwrap
    obtain ⟨-, hfpt, -⟩ := get_frame_address_spec header header_dxt10 _ rfl hwrap
      (0 % ((get_dds_info header header_dxt10).frame_count /
        (get_dds_info header header_dxt10).array_size) + 1) 0 (Nat.lt_succ_self _)
    rw [hfpt]
    exact le_trans (get_dds_info_mip_levels_pos header header_dxt10) (le_sum_depth_at _ _)

/-- C24: the forward formula followed by the decomposition is the identity.
For an `info` written by `get_dds_info` whose frame count did not wrap around
32 bits and every address with `a < array_size`, `m < mip_levels` and
`s < depth_at m`, the flat index `a * (frame_count / array_size) + (sum of the
depths of the mip levels below m) + s` is below `frame_count`, and the
decomposition of `DdsDecoder_GetFrame` (with fuel for its loop) returns
exactly `(a, m, s)`, which the session passes on to `DdsDecoder_Dds_GetFrame`;
two valid addresses with the same flat index are equal, and every index below
`frame_count` is the flat index of a valid address. -/
theorem flat_index_decomposes (header : DDS_HEADER) (header_dxt10 : DDS_HEADER_DXT10)
    (info : dds_info) (hinfo : info = get_dds_info header header_dxt10)
    (hwrap : exact_frame_count info < 2 ^ 32) (a m s : Nat)
    (ha : a < info.array_size) (hm : m < info.mip_levels)
    (hs : s < depth_at info.depth m) :
    flat_index info a m s < info.frame_count ∧
    (∀ fuel : Nat,
      flat_index info a m s % (info.frame_count / info.array_size) < fuel →
      get_frame_address fuel info (flat_index info a m s) = Outcome.ok (a, m, s) ∧
      ∀ (This : DdsDecoder) (HeapAlloc : Bool), This.initialized = true →
        This.info = info →
        DdsDecoder_GetFrame fuel This (flat_index info a m s) true HeapAlloc =
          DdsDecoder_Dds_GetFrame This a m s true HeapAlloc) ∧
    (∀ a' m' s' : Nat, a' < info.array_size → m' < info.mip_levels →
      s' < depth_at info.depth m' →
      flat_index info a' m' s' = flat_index info a m s → a' = a ∧ m' = m ∧ s' = s) ∧
    (∀ index : Nat, index < info.frame_count →
      ∃ a' m' s' : Nat, a' < info.array_size ∧ m' < info.mip_levels ∧
        s' < depth_at info.depth m' ∧ flat_index info a' m' s' = index) := by
  have hflat := get_frame_address_flat_index header header_dxt10 info hinfo hwrap a m s
    ha hm hs _ (Nat.lt_succ_self _)
  refine ⟨hflat.1, ?_, ?_, ?_⟩
  · intro fuel hfuel
    have haddr := (get_frame_address_flat_index header header_dxt10 info hinfo hwrap a m s
      ha hm hs fuel hfuel).2.2
    refine ⟨haddr, ?_⟩
    intro This HeapAlloc hinit hthis
    unfold DdsDecoder_GetFrame
    rw [hthis, haddr]
    simp [hinit]
  · intro a' m' s' ha' hm' hs' heq
    have hother := (get_frame_address_flat_index header header_dxt10 info hinfo hwrap
      a' m' s' ha' hm' hs' _ (Nat.lt_succ_self _)).2.2
    rw [heq, hflat.2.1] at hother
    have hthis := hflat.2.2
    rw [hflat.2.1] at hthis
    rw [hthis] at hother
    simp only [Outcome.ok.injEq, Prod.mk.injEq] at hother
    exact ⟨hother.1.symm, hother.2.1.symm, hother.2.2.symm⟩
  · intro index hindex
    obtain ⟨hfc, hfpt, m', s', -, hm', hs', hrem⟩ :=
      get_frame_address_spec header header_dxt10 info hinfo hwrap _ index
        (Nat.lt_succ_self _)
    refine ⟨index / (info.frame_count / info.array_size), m', s', ?_, hm', hs', ?_⟩
    · rw [Nat.div_lt_iff_lt_mul (by
        rw [hfpt]; exact lt_of_lt_of_le (by omega) (le_sum_depth_at _ _))]
      rw [hfpt]
      unfold exact_frame_count at hfc
      rw [hfc] at hindex
      exact hindex
    · unfold flat_index
      rw [Nat.add_assoc, ← hrem]
      exact Nat.div_add_mod' index _

set_option maxRecDepth 20000 in
/-- C24 at the volume header (depth 8, 4 mip levels, array size 3) and the
address (1, 1, 0), whose flat index is 23. -/
theorem flat_index_decomposes_witness :
    exact_frame_count (get_dds_info (stream_header volume_stream)
      (stream_header_dxt10 volume_stream)) < 2 ^ 32 ∧
    flat_index (get_dds_info (stream_header volume_stream)
      (stream_header_dxt10 volume_stream)) 1 1 0 = 23 ∧
    get_frame_address 9 (get_dds_info (stream_header volume_stream)
      (stream_header_dxt10 volume_stream)) 23 = Outcome.ok (1, 1, 0) := by
  have hvalue : flat_index (get_dds_info (stream_header volume_stream)
      (stream_header_dxt10 volume_stream)) 1 1 0 = 23 := by decide
  have h := (flat_index_decomposes (stream_header volume_stream)
    (stream_header_dxt10 volume_stream) _ rfl (by decide) 1 1 0 (by decide) (by decide)
    (by decide)).2.1 9 (by decide)
  rw [hvalue] at h
  exact ⟨by decide, hvalue, h.1⟩

set_option maxRecDepth 20000 in
/-- C25: `DdsDecoder_Dds_GetFrame` accepts addresses that no flat index
reaches.  A volume file of depth 8 with 4 mip levels and array size 1 is
accepted, with 15 frames; `DdsDecoder_Dds_GetFrame` stores a frame for the
address (0, 1, 7), whose slice index is not below the depth 4 of mip level 1
(the slice is checked against the base depth 8 only); and the decomposition
of `DdsDecoder_GetFrame` returns this address for no index and no fuel. -/
theorem DdsDecoder_Dds_GetFrame_unreachable_address :
    (DdsDecoder_Initialize new_session deep_stream).1 = HRESULT.S_OK ∧
    (DdsDecoder_Initialize new_session deep_stream).2.info.depth = 8 ∧
    (DdsDecoder_Initialize new_session deep_stream).2.info.mip_levels = 4 ∧
    (DdsDecoder_Initialize new_session deep_stream).2.info.array_size = 1 ∧
    (DdsDecoder_Initialize new_session deep_stream).2.info.frame_count = 15 ∧
    DdsDecoder_Dds_GetFrame (DdsDecoder_Initialize new_session deep_stream).2 0 1 7
      true true = Outcome.ok (fill_frame_info 32 32 77) ∧
    depth_at (DdsDecoder_Initialize new_session deep_stream).2.info.depth 1 = 4 ∧
    ¬ (7 < depth_at (DdsDecoder_Initialize new_session deep_stream).2.info.depth 1) ∧
    (7 < (DdsDecoder_Initialize new_session deep_stream).2.info.depth) ∧
    (∀ fuel index : Nat,
      get_frame_address fuel (DdsDecoder_Initialize new_session deep_stream).2.info index ≠
        Outcome.ok (0, 1, 7)) := by
  refine ⟨by decide, by decide, by decide, by decide, by decide, by decide, by decide,
    by decide, by decide, ?_⟩
  intro fuel index haddr
  have hsound := get_frame_address_sound
    (DdsDecoder_Initialize new_session deep_stream).2.info (by decide) (by decide)
    fuel index 0 1 7 haddr
  exact absurd hsound (by decide)

/-- C26: the loop of `DdsDecoder_GetFrame` terminates.  On every initialized
session, for every index for which the divisor `frame_count / array_size` is
not zero, the decomposition returns with any fuel above
`index % frame_per_texture`, in particular with fuel for that many iterations
and the final test; the mip level it returns, which counts the iterations, is
at most `index % frame_per_texture`; the depth stays at least 1 however often
it is halved, and `DdsDecoder_GetFrame` does not run out of fuel. -/
theorem DdsDecoder_GetFrame_loop_terminates (This : DdsDecoder) (hreach : Reachable This)
    (hinit : This.initialized = true) (index : Nat)
    (hdiv : This.info.frame_count / This.info.array_size ≠ 0) :
    1 ≤ This.info.depth ∧ (∀ k : Nat, 1 ≤ halve^[k] This.info.depth) ∧
    (∀ fuel : Nat, index % (This.info.frame_count / This.info.array_size) < fuel →
      (∃ mip_level slice_index : Nat,
        get_frame_address fuel This.info index =
          Outcome.ok (index / (This.info.frame_count / This.info.array_size),
            mip_level, slice_index) ∧
        mip_level ≤ index % (This.info.frame_count / This.info.array_size) ∧
        ∀ HeapAlloc : Bool, DdsDecoder_GetFrame fuel This index true HeapAlloc =
          DdsDecoder_Dds_GetFrame This
            (index / (This.info.frame_count / This.info.array_size))
            mip_level slice_index true HeapAlloc) ∧
      ∀ HeapAlloc : Bool,
        DdsDecoder_GetFrame fuel This index true HeapAlloc ≠ Outcome.out_of_fuel) ∧
    (∃ mip_level slice_index : Nat,
      mip_walk (index % (This.info.frame_count / This.info.array_size) + 1)
        (index % (This.info.frame_count / This.info.array_size)) 0 This.info.depth =
        some (mip_level, slice_index)) := by
  obtain ⟨hd, -, -, hfc⟩ := Reachable_bounds This hreach hinit
  have hrem : index % (This.info.frame_count / This.info.array_size) <
      This.info.frame_count / This.info.array_size :=
    Nat.mod_lt _ (Nat.pos_of_ne_zero hdiv)
  have hle : This.info.frame_count / This.info.array_size ≤ This.info.frame_count :=
    Nat.div_le_self _ _
  refine ⟨hd, fun k => halve_iterate_pos hd k, ?_, ?_⟩
  · intro fuel hfuel
    obtain ⟨m, s, haddr, hm, -⟩ :=
      get_frame_address_terminates This.info hd hfc hdiv fuel index hfuel
    have hget : ∀ HeapAlloc : Bool, DdsDecoder_GetFrame fuel This index true HeapAlloc =
        DdsDecoder_Dds_GetFrame This
          (index / (This.info.frame_count / This.info.array_size)) m s true HeapAlloc := by
      intro HeapAlloc
      unfold DdsDecoder_GetFrame
      rw [haddr]
      simp [hinit]
    refine ⟨⟨m, s, haddr, hm, hget⟩, ?_⟩
    intro HeapAlloc
    rw [hget, DdsDecoder_Dds_GetFrame_eq This hinit]
    split_ifs <;> simp
  · obtain ⟨j, s, hw, -, -⟩ := mip_walk_spec
      (index % (This.info.frame_count / This.info.array_size) + 1) _ 0 This.info.depth hd
      (Nat.lt_succ_self _) (by omega)
    exact ⟨0 + j, s, hw⟩

set_option maxRecDepth 20000 in
/-- C26 at the volume session (15 frames for each texture) and the index 23:
the remainder is 8 and the loop stops after one iteration. -/
theorem DdsDecoder_GetFrame_loop_terminates_witness :
    Reachable volume_session ∧ volume_session.initialized = true ∧
    volume_session.info.frame_count / volume_session.info.array_size = 15 ∧
    mip_walk 9 8 0 volume_session.info.depth = some (1, 0) ∧
    DdsDecoder_GetFrame 9 volume_session 23 true true ≠ Outcome.out_of_fuel :=
  have hreach : Reachable volume_session :=
    Reachable.step new_session volume_stream (Reachable.create _ _ _)
  have h := DdsDecoder_GetFrame_loop_terminates volume_session hreach (by decide) 23
    (by decide)
  ⟨hreach, by decide, by decide, by decide, (h.2.2.1 9 (by decide)).2 true⟩


end Dds
